import Mathlib

/-!
# CardSentry transaction simulator: a shallow embedding

This file embeds `src/dataInitializing/transactionSim.py` in Lean 4 and
settles the frozen claims about it.

Modelling conventions:
* Numbers are carried in an arbitrary `LinearOrderedField` with a `FloorRing`
  (instantiated at `ℚ` for executable checks and at `ℝ` for the distance
  analysis).  Python's transcendental float functions (`math.cos`, `math.sin`,
  `math.sqrt`, `math.atan2` and the constant `math.pi`) are abstracted as a
  record of operations `MathOps`; `realOps` instantiates them with the exact
  real functions.
* Randomness is threaded explicitly: every call the program makes into the
  `random` module is represented by one field of a draw record, holding the
  value that call returned.  `random.uniform(a, b)` is represented by a unit
  draw `u` together with `uniform a b u = a + (b - a) * u`, so hypotheses
  `0 ≤ u ≤ 1` state exactly the support of the Python call.
  `uuid.uuid4()` is NOT drawn from Python's seeded `random` generator; it is
  kept as a separate stream of identifiers.
* Python `round(x, n)` (round half to even on floats) is modelled as
  round-to-nearest `pyround`; the half-way tie rule is immaterial to every
  claim.  Python float `%` on positives is modelled by `pymod`, which returns
  a representative in `[0, m)` like Python does.
-/

namespace CardSentry

variable {α : Type} [LinearOrderedField α] [FloorRing α]

/-- The transcendental float operations of `math` that the script uses,
abstracted so the model stays executable. -/
structure MathOps (α : Type) where
  pi : α
  cos : α → α
  sin : α → α
  sqrt : α → α
  atan2 : α → α → α

/-- `math.radians(x)` is `x * pi / 180`. -/
def MathOps.radians (M : MathOps α) (x : α) : α := x * M.pi / 180

/-- Python `round(x, n)`: round to `n` decimal places. -/
def pyround (x : α) (n : ℕ) : α := ((round (x * 10 ^ n) : ℤ) : α) / 10 ^ n

/-- Python float `%` for a positive modulus: result lies in `[0, m)`. -/
def pymod (x m : α) : α := x - m * ⌊x / m⌋

/-- `random.uniform(a, b)` with unit draw `u ∈ [0, 1]`. -/
def uniform (a b u : α) : α := a + (b - a) * u

/-- The denominator of the longitude degrees-per-km conversion in
`generate_location_around` (line 32 of the source): `111.1 * cos(radians(lat))`.
No clamp or guard is applied to it in the source. -/
def lonDegDenominator (M : MathOps α) (lat : α) : α :=
  (1111 / 10) * M.cos (M.radians lat)

/-- `generate_location_around(lat, lon, max_distance_km)` (source lines 27-39):
draws a point in a degree box around `(lat, lon)`, clamps latitude to
`[-90, 90]`, wraps longitude via `((lon + dlon + 180) % 360) - 180`, and rounds
both outputs to 6 decimal places.  `u1`, `u2` are the unit draws of the two
`random.uniform(-r, r)` calls. -/
def generate_location_around (M : MathOps α) (lat lon max_distance_km u1 u2 : α) :
    α × α :=
  let radius_deg_lat := max_distance_km / (1111 / 10)
  let radius_deg_lon := max_distance_km / lonDegDenominator M lat
  let delta_lat := uniform (-radius_deg_lat) radius_deg_lat u1
  let delta_lon := uniform (-radius_deg_lon) radius_deg_lon u2
  let new_lat := max (-90) (min 90 (lat + delta_lat))
  let new_lon := pymod (lon + delta_lon + 180) 360 - 180
  (pyround new_lat 6, pyround new_lon 6)

/-- `haversine(lat1, lon1, lat2, lon2)` (source lines 41-51): great-circle
distance with Earth radius 6371 km. -/
def haversine (M : MathOps α) (lat1 lon1 lat2 lon2 : α) : α :=
  let dLat := M.radians (lat2 - lat1)
  let dLon := M.radians (lon2 - lon1)
  let l1 := M.radians lat1
  let l2 := M.radians lat2
  let a := M.sin (dLat / 2) ^ 2 + M.cos l1 * M.cos l2 * M.sin (dLon / 2) ^ 2
  let c := 2 * M.atan2 (M.sqrt a) (M.sqrt (1 - a))
  6371 * c

/-- The configuration constants of source lines 9-19. -/
structure Config (α : Type) where
  NUM_CARDS : ℕ
  NUM_TRANSACTIONS : ℕ
  FRAUD_INJECTION_PROBABILITY : α
  COMPROMISE_CARD_PROBABILITY : α
  AVG_TRANSACTION_DELAY_SECONDS : α
  LOCATION_VARIATION_KM_NORMAL : α
  LOCATION_VARIATION_KM_FRAUD : α
  NORMAL_AMOUNT_LO : α
  NORMAL_AMOUNT_HI : α
  FRAUD_AMOUNT_LO : α
  FRAUD_AMOUNT_HI : α
  HIGH_VELOCITY_THRESHOLD_KMH : α

/-- The default configuration of the source. -/
def defaultConfig : Config α :=
  { NUM_CARDS := 50
    NUM_TRANSACTIONS := 1000
    FRAUD_INJECTION_PROBABILITY := 3 / 100
    COMPROMISE_CARD_PROBABILITY := 1 / 10
    AVG_TRANSACTION_DELAY_SECONDS := 1 / 2
    LOCATION_VARIATION_KM_NORMAL := 50
    LOCATION_VARIATION_KM_FRAUD := 5000
    NORMAL_AMOUNT_LO := 5
    NORMAL_AMOUNT_HI := 250
    FRAUD_AMOUNT_LO := 100
    FRAUD_AMOUNT_HI := 2000
    HIGH_VELOCITY_THRESHOLD_KMH := 800 }

/-- Per-card mutable state (source lines 81-88).  The three `LastTx` fields
are `None` until the first transaction of the card. -/
structure Card (α : Type) where
  HomeLatitude : α
  HomeLongitude : α
  IsCompromised : Bool
  LastTxTimestamp : Option α
  LastTxLatitude : Option α
  LastTxLongitude : Option α

/-- A junk card used only to totalise list indexing; every theorem that reads
a card first establishes the index is in bounds. -/
def dummyCard : Card α :=
  { HomeLatitude := 0, HomeLongitude := 0, IsCompromised := false
    LastTxTimestamp := none, LastTxLatitude := none, LastTxLongitude := none }

/-- The emitted transaction record (source lines 155-168).  `TransactionID`
abstracts the `uuid4` string, `CardID` the `CARD_xxxx` key (as its index),
`MerchantID` the 4-digit code inside the `MERCHANT_xxxx` string.
`Timestamp` carries the full clock value; its second-precision string
serialization is out of scope. -/
structure Record (α : Type) where
  TransactionID : ℕ
  CardID : ℕ
  Timestamp : α
  Amount : α
  MerchantID : ℕ
  MerchantLatitude : α
  MerchantLongitude : α
  IsFraud : Bool
  HomeLatitude : α
  HomeLongitude : α

/-- The random draws consumed while creating one card (source lines 79-84). -/
structure InitDraws (α : Type) where
  homeLatU : α
  homeLonU : α
  compromiseRoll : α

/-- Card population bootstrap (source lines 75-88), one card per draw
record. -/
def initPopulation (cfg : Config α) (ds : List (InitDraws α)) : List (Card α) :=
  ds.map fun d =>
    { HomeLatitude := pyround (uniform 25 65 d.homeLatU) 6
      HomeLongitude := pyround (uniform (-125) 40 d.homeLonU) 6
      IsCompromised := decide (d.compromiseRoll < cfg.COMPROMISE_CARD_PROBABILITY)
      LastTxTimestamp := none
      LastTxLatitude := none
      LastTxLongitude := none }

/-- The random draws consumed by one iteration of the main loop.  Each field
holds the value returned by the corresponding `random` call; a field is
simply unread on iterations whose branch does not make that call. -/
structure StepDraws (α : Type) where
  cardChoice : ℕ
  fraudRoll : α
  amountU : α
  radiusU : α
  locU1 : α
  locU2 : α
  forceRoll : α
  delayU : α
  expDelay : α
  merchantDraw : ℕ

/-- The fraud-path time update (source lines 114-135).  The guard on line 115
is Python truthiness: it fails when the card has no prior transaction AND
when the stored `LastTxLatitude` is exactly `0.0`.  `LastTxLongitude` is read
unguarded on line 119; whenever the latitude is present so is the longitude,
and the model reads it with default `0`.  Inside the guard: a positive
elapsed time leads to the forcing check (rewriting the clock backwards with
the delay clamped to at least 1 second), a non-positive elapsed time advances
the clock by the expovariate draw, and a failed forcing check leaves the
clock untouched. -/
def fraudTimeUpdate (cfg : Config α) (M : MathOps α) (card : Card α) (now : α)
    (mlat mlon : α) (d : StepDraws α) : α :=
  match card.LastTxTimestamp, card.LastTxLatitude with
  | some lastTs, some lastLat =>
    if lastLat = 0 then now
    else
      let lastLon := card.LastTxLongitude.getD 0
      let time_delta_seconds := now - lastTs
      if 0 < time_delta_seconds then
        let distance_km := haversine M lastLat lastLon mlat mlon
        let velocity_kmh := distance_km / time_delta_seconds * 3600
        if velocity_kmh < cfg.HIGH_VELOCITY_THRESHOLD_KMH ∧ d.forceRoll < 1 / 2 then
          let required_time_seconds := distance_km / cfg.HIGH_VELOCITY_THRESHOLD_KMH * 3600
          let simulated_short_delay :=
            max 1 (uniform (required_time_seconds * (1 / 2))
                           (required_time_seconds * (9 / 10)) d.delayU)
          lastTs + simulated_short_delay
        else now
      else now + d.expDelay
  | _, _ => now

/-- The result of one loop iteration: updated card list, updated shared
clock, and the emitted record. -/
structure StepResult (α : Type) where
  cards : List (Card α)
  now : α
  txn : Record α

/-- The index of the uniformly chosen card (source line 95,
`random.choice(list(cards_data.keys()))`, with keys in insertion order). -/
def chosenIdx (cards : List (Card α)) (d : StepDraws α) : ℕ :=
  d.cardChoice % cards.length

/-- The fraud decision (source line 104): fraudulent iff the card is
compromised and the independent roll is below the injection probability. -/
def fraudFlag (cfg : Config α) (card : Card α) (d : StepDraws α) : Bool :=
  card.IsCompromised && decide (d.fraudRoll < cfg.FRAUD_INJECTION_PROBABILITY)

/-- The branch-dependent data of one iteration: amount, merchant location
and updated clock (source lines 104-148).  Fraud path: fraud amount range,
radius drawn from `[2 * normal_max, fraud_max]`, clock via
`fraudTimeUpdate`.  Normal path: normal amount range, radius drawn from
`[0, normal_max]`, clock advanced by the expovariate draw. -/
def branchData (cfg : Config α) (M : MathOps α) (card : Card α) (now : α)
    (d : StepDraws α) : α × (α × α) × α :=
  if fraudFlag cfg card d then
    let amount := pyround (uniform cfg.FRAUD_AMOUNT_LO cfg.FRAUD_AMOUNT_HI d.amountU) 2
    let max_dist := uniform (2 * cfg.LOCATION_VARIATION_KM_NORMAL)
                            cfg.LOCATION_VARIATION_KM_FRAUD d.radiusU
    let loc := generate_location_around M card.HomeLatitude card.HomeLongitude
                 max_dist d.locU1 d.locU2
    (amount, loc, fraudTimeUpdate cfg M card now loc.1 loc.2 d)
  else
    let amount := pyround (uniform cfg.NORMAL_AMOUNT_LO cfg.NORMAL_AMOUNT_HI d.amountU) 2
    let max_dist := uniform 0 cfg.LOCATION_VARIATION_KM_NORMAL d.radiusU
    let loc := generate_location_around M card.HomeLatitude card.HomeLongitude
                 max_dist d.locU1 d.locU2
    (amount, loc, now + d.expDelay)

/-- The body of one iteration of the main loop on a nonempty card list
(source lines 94-183): record assembly (lines 151-168) and the
unconditional card-state update (lines 180-183). -/
def stepBody (cfg : Config α) (M : MathOps α) (cards : List (Card α)) (now : α)
    (d : StepDraws α) (uuidDraw : ℕ) : StepResult α :=
  let idx := chosenIdx cards d
  let card := cards.getD idx dummyCard
  let b := branchData cfg M card now d
  let now' := b.2.2
  let txn : Record α :=
    { TransactionID := uuidDraw
      CardID := idx
      Timestamp := now'
      Amount := b.1
      MerchantID := d.merchantDraw
      MerchantLatitude := b.2.1.1
      MerchantLongitude := b.2.1.2
      IsFraud := fraudFlag cfg card d
      HomeLatitude := card.HomeLatitude
      HomeLongitude := card.HomeLongitude }
  let card' := { card with LastTxTimestamp := some now'
                           LastTxLatitude := some b.2.1.1
                           LastTxLongitude := some b.2.1.2 }
  { cards := cards.set idx card', now := now', txn := txn }

/-- One iteration of the main loop.  Returns `none` when the card list is
empty, where `random.choice` (source line 95) raises before any record is
emitted. -/
def step (cfg : Config α) (M : MathOps α) (cards : List (Card α)) (now : α)
    (d : StepDraws α) (uuidDraw : ℕ) : Option (StepResult α) :=
  if cards.isEmpty then none else some (stepBody cfg M cards now d uuidDraw)

/-- The main loop: fold `step` over the per-iteration draw/uuid stream,
collecting emitted records and stopping where the Python script would
raise. -/
def runLoop (cfg : Config α) (M : MathOps α) :
    List (StepDraws α × ℕ) → List (Card α) → α → List (Record α)
  | [], _, _ => []
  | (d, u) :: ds, cards, now =>
    match step cfg M cards now d u with
    | none => []
    | some res => res.txn :: runLoop cfg M ds res.cards res.now

/-- A whole run (source lines 74-190): bootstrap the population from the
init draws, set the shared clock to the wall-clock start `t0`, then iterate.
The `steps` list carries one seeded draw record plus one (unseeded) uuid per
transaction slot. -/
def simulate (cfg : Config α) (M : MathOps α) (initDs : List (InitDraws α))
    (t0 : α) (steps : List (StepDraws α × ℕ)) : List (Record α) :=
  runLoop cfg M steps (initPopulation cfg initDs) t0

/-- Support of the draws consumed while creating one card:
`random.uniform` unit draws lie in `[0, 1]`, `random.random()` in `[0, 1)`. -/
def ValidInitDraws (d : InitDraws α) : Prop :=
  0 ≤ d.homeLatU ∧ d.homeLatU ≤ 1 ∧ 0 ≤ d.homeLonU ∧ d.homeLonU ≤ 1 ∧
    0 ≤ d.compromiseRoll ∧ d.compromiseRoll < 1

/-- Support of the draws consumed by one loop iteration. -/
def ValidStepDraws (d : StepDraws α) : Prop :=
  0 ≤ d.fraudRoll ∧ d.fraudRoll < 1 ∧
    0 ≤ d.amountU ∧ d.amountU ≤ 1 ∧
    0 ≤ d.radiusU ∧ d.radiusU ≤ 1 ∧
    0 ≤ d.locU1 ∧ d.locU1 ≤ 1 ∧
    0 ≤ d.locU2 ∧ d.locU2 ≤ 1 ∧
    0 ≤ d.forceRoll ∧ d.forceRoll < 1 ∧
    0 ≤ d.delayU ∧ d.delayU ≤ 1 ∧
    0 ≤ d.expDelay ∧
    1000 ≤ d.merchantDraw ∧ d.merchantDraw ≤ 9999

end CardSentry


namespace CardSentry

variable {α : Type} [LinearOrderedField α] [FloorRing α]

/-! ## Concrete instantiations of the abstract float operations

These stand-in operations let the executable claims be checked at `ℚ`;
`realOps` instantiates the operations with the exact real functions for the
distance analysis.  `realOps.atan2 y x = arctan (y / x)`, which agrees with
`math.atan2` on the quadrant `x > 0` — the only quadrant `haversine` ever
calls it on, since both arguments are square roots. -/

/-- Trivial rational stand-in operations (haversine evaluates to `0`). -/
def opsQ : MathOps ℚ := ⟨0, fun _ => 1, fun _ => 0, fun x => x, fun _ _ => 0⟩

/-- The exact real operations. -/
noncomputable def realOps : MathOps ℝ :=
  ⟨Real.pi, Real.cos, Real.sin, Real.sqrt, fun y x => Real.arctan (y / x)⟩

/-! ## Concrete fixtures for counterexamples and witnesses -/

/-- A non-compromised card at home `(25, 0)` with no prior transaction. -/
def cardNormal : Card ℚ := ⟨25, 0, false, none, none, none⟩

/-- A compromised card at home `(25, 0)` with no prior transaction. -/
def cardComp : Card ℚ := ⟨25, 0, true, none, none, none⟩

/-- A compromised card whose stored last-transaction latitude is exactly `0`
(as stored after a prior transaction whose merchant latitude rounded to `0`). -/
def cardZeroLat : Card ℚ := ⟨25, 0, true, some 5, some 0, some 7⟩

/-- A compromised card with a prior transaction at `(1, 5)` at time `0`. -/
def cardPrior : Card ℚ := ⟨1, 5, true, some 0, some 1, some 5⟩

/-- Step draws taking the normal branch (`fraudRoll = 1/2 ≥ 0.03`). -/
def drawsNormal : StepDraws ℚ := ⟨0, 1/2, 0, 1, 1, 1/2, 0, 0, 1, 1234⟩

/-- Step draws taking the fraud branch (`fraudRoll = 0 < 0.03`) with a
successful forcing roll, `delayU = 1/2` and `expDelay = 1`. -/
def drawsFraud : StepDraws ℚ := ⟨0, 0, 0, 0, 0, 0, 0, 1/2, 1, 1234⟩

/-- Init draws producing a card at home `(25, -125)`, `compromiseRoll = 0`. -/
def initDrawsA : InitDraws ℚ := ⟨0, 0, 0⟩

/-- The default configuration with compromise probability `0`. -/
def cfgZeroCompromise : Config ℚ :=
  { defaultConfig with COMPROMISE_CARD_PROBABILITY := 0 }

/-- An invalid configuration: compromise probability `1.5`, outside `[0, 1]`. -/
def cfgBadProb : Config ℚ :=
  { defaultConfig with COMPROMISE_CARD_PROBABILITY := 3 / 2 }

/-- A non-compromised card at home `(25, 0)` over `ℝ`, for the distance
analysis. -/
def cardC2 : Card ℝ := ⟨25, 0, false, none, none, none⟩

/-- The longitude degree-radius the sampler computes at latitude `25` for a
50 km max distance, under the exact real operations. -/
noncomputable def rLonC2 : ℝ := 50 / lonDegDenominator realOps 25

/-- The unit draw that makes the sampled longitude offset exactly `0.49`
degrees at latitude `25`. -/
noncomputable def u2C2 : ℝ := (49 / 100 + rLonC2) / (2 * rLonC2)

/-- Step draws over `ℝ` taking the normal branch with a maximal radius draw,
a maximal latitude offset draw and a longitude offset of `0.49` degrees. -/
noncomputable def drawsC2 : StepDraws ℝ := ⟨0, 1/2, 0, 1, 1, u2C2, 0, 0, 1, 1234⟩

/-- Init draws over `ℝ` producing a card at home `(25, -125)`. -/
noncomputable def initDrawsAR : InitDraws ℝ := ⟨0, 0, 0⟩

/-- Step draws over `ℝ` taking the normal branch. -/
noncomputable def drawsNormalR : StepDraws ℝ := ⟨0, 1/2, 0, 1, 1, 1/2, 0, 0, 1, 1234⟩

/-- A compromised real-valued card whose prior transaction happened at
timestamp `0` at location `(1, 5)`. -/
def cardPriorR : Card ℝ := ⟨1, 5, true, some 0, some 1, some 5⟩

/-- A compromised real-valued card at home `(25, 0)` whose prior transaction
happened at timestamp `0` at its home location `(25, 0)`. -/
def cardPriorC1 : Card ℝ := ⟨25, 0, true, some 0, some 25, some 0⟩

/-- Real-valued step draws taking the fraud branch with every unit draw
zero. -/
def drawsFraudR : StepDraws ℝ := ⟨0, 0, 0, 0, 0, 0, 0, 0, 1, 1234⟩

/-- Support bounds for the draws the normal-path location sampling uses. -/
def LocDrawsInSupport (d : StepDraws α) : Prop :=
  0 ≤ d.radiusU ∧ d.radiusU ≤ 1 ∧ 0 ≤ d.locU1 ∧ d.locU1 ≤ 1 ∧
    0 ≤ d.locU2 ∧ d.locU2 ≤ 1

/-- Home coordinates inside the bootstrap sampling box of source lines
79-80: latitude in `[25, 65]`, longitude in `[-125, 40]`. -/
def HomeInRange (c : Card α) : Prop :=
  25 ≤ c.HomeLatitude ∧ c.HomeLatitude ≤ 65 ∧
    -125 ≤ c.HomeLongitude ∧ c.HomeLongitude ≤ 40

/-- All fields of a record except `TransactionID` — the `uuid4` value, the
one field that is not derived from the seeded `random` generator. -/
def recordSansId (r : Record α) : ℕ × α × α × ℕ × α × α × Bool × α × α :=
  (r.CardID, r.Timestamp, r.Amount, r.MerchantID, r.MerchantLatitude,
    r.MerchantLongitude, r.IsFraud, r.HomeLatitude, r.HomeLongitude)

/-! ## Helper lemmas about the numeric primitives -/

theorem pyround_eq_of {x : α} {n : ℕ} {z : ℤ} (h1 : (z : α) ≤ x * 10 ^ n + 1 / 2)
    (h2 : x * 10 ^ n + 1 / 2 < z + 1) : pyround x n = (z : α) / 10 ^ n := by
  have hz : ⌊x * 10 ^ n + 1 / 2⌋ = z := Int.floor_eq_iff.mpr ⟨h1, by exact_mod_cast h2⟩
  unfold pyround
  rw [round_eq, hz]

theorem pyround_intCast (z : ℤ) (n : ℕ) : pyround (z : α) n = z := by
  have h : ((z : α)) * 10 ^ n = ((z * 10 ^ n : ℤ) : α) := by push_cast; ring
  unfold pyround
  rw [h, round_intCast]
  have h10 : (10 : α) ^ n ≠ 0 := by positivity
  push_cast
  field_simp

theorem pyround_mono {x y : α} (n : ℕ) (h : x ≤ y) : pyround x n ≤ pyround y n := by
  have h10 : (0 : α) < 10 ^ n := by positivity
  unfold pyround
  rw [round_eq, round_eq, div_le_div_iff_of_pos_right h10]
  exact_mod_cast Int.floor_mono (by nlinarith)

theorem pymod_eq_mul_fract (x : α) {m : α} (hm : m ≠ 0) :
    pymod x m = m * Int.fract (x / m) := by
  unfold pymod
  rw [Int.fract]
  field_simp

theorem pymod_nonneg (x : α) {m : α} (hm : 0 < m) : 0 ≤ pymod x m := by
  rw [pymod_eq_mul_fract x hm.ne']
  exact mul_nonneg hm.le (Int.fract_nonneg _)

theorem pymod_lt (x : α) {m : α} (hm : 0 < m) : pymod x m < m := by
  rw [pymod_eq_mul_fract x hm.ne']
  calc m * Int.fract (x / m) < m * 1 := by
        exact (mul_lt_mul_left hm).mpr (Int.fract_lt_one _)
    _ = m := mul_one m

theorem pymod_eq_self {x m : α} (h0 : 0 ≤ x) (h1 : x < m) (hm : 0 < m) :
    pymod x m = x := by
  unfold pymod
  have hfl : ⌊x / m⌋ = 0 := by
    rw [Int.floor_eq_zero_iff]
    exact ⟨div_nonneg h0 hm.le, by rwa [div_lt_one hm]⟩
  rw [hfl]
  push_cast
  ring

end CardSentry

namespace CardSentry

variable {α : Type} [LinearOrderedField α] [FloorRing α]

/-- The clamped-then-rounded latitude output of the sampler stays in
`[-90, 90]`. -/
theorem pyround6_bounds_lat (v : α) :
    -90 ≤ pyround (max (-90) (min 90 v)) 6 ∧ pyround (max (-90) (min 90 v)) 6 ≤ 90 := by
  have h90 : pyround ((90 : α)) 6 = 90 := by
    have := pyround_intCast (α := α) 90 6
    simpa using this
  have h90n : pyround ((-90 : α)) 6 = -90 := by
    have := pyround_intCast (α := α) (-90) 6
    simpa using this
  constructor
  · have h := pyround_mono (α := α) 6 (le_max_left (-90) (min 90 v))
    rwa [h90n] at h
  · have h := pyround_mono (α := α) 6
      (show max (-90) (min 90 v) ≤ (90 : α) from max_le (by norm_num) (min_le_left _ _))
    rwa [h90] at h

/-- The wrapped-then-rounded longitude output of the sampler stays in
`[-180, 180]` (the upper endpoint is attainable through rounding). -/
theorem pyround6_bounds_lon {w : α} (h0 : 0 ≤ w) (h1 : w < 360) :
    -180 ≤ pyround (w - 180) 6 ∧ pyround (w - 180) 6 ≤ 180 := by
  have h180 : pyround ((180 : α)) 6 = 180 := by
    have := pyround_intCast (α := α) 180 6
    simpa using this
  have h180n : pyround ((-180 : α)) 6 = -180 := by
    have := pyround_intCast (α := α) (-180) 6
    simpa using this
  constructor
  · have h := pyround_mono (α := α) 6 (show (-180 : α) ≤ w - 180 by linarith)
    rwa [h180n] at h
  · have h := pyround_mono (α := α) 6 (show w - 180 ≤ (180 : α) by linarith)
    rwa [h180] at h

/-! ## Claim C5: output range of the nearby-location sampler -/

/-- C5: counterexample.  At latitude `0`, longitude `179.9999999`, max
distance `0` and all draws `0`, the sampler returns longitude exactly `180`:
rounding to 6 decimal places carries the wrapped longitude (which is below
`180`) up to the excluded endpoint, so the claimed half-open range
`[-180, 180)` is violated. -/
theorem C5_counterexample :
    (generate_location_around opsQ 0 (1799999999 / 10000000) 0 0 0).2 = 180 ∧
      ¬((180 : ℚ) < 180) := by
  refine ⟨?_, by norm_num⟩
  simp only [generate_location_around, uniform, lonDegDenominator, opsQ]
  norm_num
  rw [pymod_eq_self (by norm_num) (by norm_num) (by norm_num)]
  rw [pyround_eq_of (z := 180000000) (by norm_num) (by norm_num)]
  norm_num

/-- C5: amended.  For every input (any operations, latitude, longitude, max
distance and unit draws) the sampler's output latitude lies in `[-90, 90]`
and its longitude lies in the closed interval `[-180, 180]`.  The upper
endpoint `180` is attained (see the counterexample), so the half-open
longitude interval of the claim must be widened to the closed one. -/
theorem C5_sample_bounds_amended (M : MathOps α) (lat lon maxd u1 u2 : α) :
    (-90 ≤ (generate_location_around M lat lon maxd u1 u2).1 ∧
        (generate_location_around M lat lon maxd u1 u2).1 ≤ 90) ∧
      (-180 ≤ (generate_location_around M lat lon maxd u1 u2).2 ∧
        (generate_location_around M lat lon maxd u1 u2).2 ≤ 180) := by
  simp only [generate_location_around]
  exact ⟨pyround6_bounds_lat _,
    pyround6_bounds_lon (pymod_nonneg _ (by norm_num)) (pymod_lt _ (by norm_num))⟩

end CardSentry

namespace CardSentry

variable {α : Type} [LinearOrderedField α] [FloorRing α]

/-! ## Claim C3: fraud implies compromise -/

/-- If every card of the population is non-compromised, one step emits a
non-fraud record and preserves the property. -/
theorem stepBody_nonfraud (cfg : Config α) (M : MathOps α) (cards : List (Card α))
    (now : α) (d : StepDraws α) (u : ℕ)
    (hall : ∀ c ∈ cards, c.IsCompromised = false) :
    (stepBody cfg M cards now d u).txn.IsFraud = false ∧
      ∀ c ∈ (stepBody cfg M cards now d u).cards, c.IsCompromised = false := by
  have hcard : (cards.getD (chosenIdx cards d) dummyCard).IsCompromised = false := by
    by_cases hlen : chosenIdx cards d < cards.length
    · rw [List.getD_eq_getElem cards dummyCard hlen]
      exact hall _ (List.getElem_mem hlen)
    · rw [List.getD_eq_default cards dummyCard (le_of_not_lt hlen)]
      rfl
  refine ⟨?_, ?_⟩
  · show fraudFlag cfg (cards.getD (chosenIdx cards d) dummyCard) d = false
    unfold fraudFlag
    rw [hcard]
    exact Bool.false_and _
  · intro c hc
    rcases List.mem_or_eq_of_mem_set hc with h | rfl
    · exact hall _ h
    · exact hcard

/-- With compromise probability `0` and in-support compromise rolls, the
bootstrap marks no card compromised. -/
theorem initPopulation_zero_noncompromised (cfg : Config α)
    (h0 : cfg.COMPROMISE_CARD_PROBABILITY = 0) (ds : List (InitDraws α))
    (hds : ∀ dd ∈ ds, 0 ≤ dd.compromiseRoll) :
    ∀ c ∈ initPopulation cfg ds, c.IsCompromised = false := by
  intro c hc
  simp only [initPopulation, List.mem_map] at hc
  obtain ⟨dd, hdd, rfl⟩ := hc
  show decide (dd.compromiseRoll < cfg.COMPROMISE_CARD_PROBABILITY) = false
  rw [h0, decide_eq_false_iff_not, not_lt]
  exact hds dd hdd

/-- A population of non-compromised cards yields only non-fraud records, for
the whole loop. -/
theorem runLoop_nonfraud (cfg : Config α) (M : MathOps α) :
    ∀ (steps : List (StepDraws α × ℕ)) (cards : List (Card α)) (now : α),
      (∀ c ∈ cards, c.IsCompromised = false) →
        ∀ txn ∈ runLoop cfg M steps cards now, txn.IsFraud = false := by
  intro steps
  induction steps with
  | nil =>
    intro cards now _ txn htxn
    simp [runLoop] at htxn
  | cons du ds ih =>
    intro cards now hall txn htxn
    obtain ⟨dd, uu⟩ := du
    by_cases he : cards.isEmpty
    · simp [runLoop, step, he] at htxn
    · simp only [runLoop, step, he, Bool.false_eq_true, if_false] at htxn
      rcases List.mem_cons.mp htxn with rfl | hmem
      · exact (stepBody_nonfraud cfg M cards now dd uu hall).1
      · exact ih _ _ ((stepBody_nonfraud cfg M cards now dd uu hall).2) _ hmem

/-- C3: for every emitted record, a true fraud flag implies the chosen card
was compromised; and with compromise probability `0`, in any run with
in-support rolls, every emitted record has a false fraud flag, for any
number of transactions. -/
theorem C3_fraud_implies_compromised (cfg : Config α) (M : MathOps α) :
    (∀ (cards : List (Card α)) (now : α) (d : StepDraws α) (u : ℕ)
        (res : StepResult α), step cfg M cards now d u = some res →
          res.txn.IsFraud = true →
            (cards.getD (chosenIdx cards d) dummyCard).IsCompromised = true) ∧
      (cfg.COMPROMISE_CARD_PROBABILITY = 0 →
        ∀ (initDs : List (InitDraws α)) (t0 : α) (steps : List (StepDraws α × ℕ)),
          (∀ dd ∈ initDs, 0 ≤ dd.compromiseRoll) →
            ∀ txn ∈ simulate cfg M initDs t0 steps, txn.IsFraud = false) := by
  constructor
  · intro cards now d u res hstep hfraud
    by_cases he : cards.isEmpty
    · simp [step, he] at hstep
    · simp only [step, he, Bool.false_eq_true, if_false, Option.some.injEq] at hstep
      subst hstep
      have hflag : fraudFlag cfg (cards.getD (chosenIdx cards d) dummyCard) d = true :=
        hfraud
      exact (Bool.and_eq_true_iff.mp hflag).1
  · intro h0 initDs t0 steps hds
    exact runLoop_nonfraud cfg M steps _ t0
      (initPopulation_zero_noncompromised cfg h0 initDs hds)

/-- C3: witness.  A concrete zero-compromise-probability run whose single
record is non-fraud. -/
theorem C3_witness :
    (∀ dd ∈ [initDrawsA], (0 : ℚ) ≤ dd.compromiseRoll) ∧
      ∀ txn ∈ simulate cfgZeroCompromise opsQ [initDrawsA] 0 [(drawsNormal, 7)],
        txn.IsFraud = false := by
  refine ⟨?_, ?_⟩
  · intro dd hdd
    simp only [List.mem_singleton] at hdd
    subst hdd
    norm_num [initDrawsA]
  · exact (C3_fraud_implies_compromised cfgZeroCompromise opsQ).2 rfl
      [initDrawsA] 0 [(drawsNormal, 7)]
      (by intro dd hdd; simp only [List.mem_singleton] at hdd; subst hdd
          norm_num [initDrawsA])

end CardSentry

namespace CardSentry

variable {α : Type} [LinearOrderedField α] [FloorRing α]

/-! ## List update helpers -/

theorem getD_set_self {β : Type} {l : List β} {n : ℕ} (hn : n < l.length) (b dflt : β) :
    (l.set n b).getD n dflt = b := by
  rw [List.getD_eq_getElem (l.set n b) dflt (by simpa using hn)]
  exact List.getElem_set_self (by simpa using hn)

theorem getD_set_ne {β : Type} {l : List β} {n m : ℕ} (h : n ≠ m) (b dflt : β) :
    (l.set n b).getD m dflt = l.getD m dflt := by
  by_cases hm : m < l.length
  · rw [List.getD_eq_getElem (l.set n b) dflt (by simpa using hm),
      List.getD_eq_getElem l dflt hm]
    exact List.getElem_set_ne h ..
  · rw [List.getD_eq_default (l.set n b) dflt (by simpa using le_of_not_lt hm),
      List.getD_eq_default l dflt (le_of_not_lt hm)]

/-! ## Claim C7: per-step state update and frame -/

/-- C7: after one emitted step, the chosen card's last-transaction timestamp
and coordinates equal the record's timestamp and merchant coordinates
(unconditionally), its home coordinates and compromise flag are unchanged,
and every other card is unchanged. -/
theorem C7_state_update (cfg : Config α) (M : MathOps α) (cards : List (Card α))
    (now : α) (d : StepDraws α) (u : ℕ) (res : StepResult α)
    (h : step cfg M cards now d u = some res) :
    ((res.cards.getD (chosenIdx cards d) dummyCard).LastTxTimestamp
        = some res.txn.Timestamp ∧
      (res.cards.getD (chosenIdx cards d) dummyCard).LastTxLatitude
        = some res.txn.MerchantLatitude ∧
      (res.cards.getD (chosenIdx cards d) dummyCard).LastTxLongitude
        = some res.txn.MerchantLongitude) ∧
      ((res.cards.getD (chosenIdx cards d) dummyCard).HomeLatitude
          = (cards.getD (chosenIdx cards d) dummyCard).HomeLatitude ∧
        (res.cards.getD (chosenIdx cards d) dummyCard).HomeLongitude
          = (cards.getD (chosenIdx cards d) dummyCard).HomeLongitude ∧
        (res.cards.getD (chosenIdx cards d) dummyCard).IsCompromised
          = (cards.getD (chosenIdx cards d) dummyCard).IsCompromised) ∧
      res.cards.length = cards.length ∧
      ∀ j, j ≠ chosenIdx cards d →
        res.cards.getD j dummyCard = cards.getD j dummyCard := by
  by_cases he : cards.isEmpty
  · simp [step, he] at h
  · simp only [step, he, Bool.false_eq_true, if_false, Option.some.injEq] at h
    subst h
    have hlen : 0 < cards.length := by
      cases cards with
      | nil => simp [List.isEmpty] at he
      | cons c cs => simp
    have hidx : chosenIdx cards d < cards.length := Nat.mod_lt _ hlen
    have hset : (stepBody cfg M cards now d u).cards.getD (chosenIdx cards d) dummyCard
        = { cards.getD (chosenIdx cards d) dummyCard with
            LastTxTimestamp := some (stepBody cfg M cards now d u).now
            LastTxLatitude :=
              some (branchData cfg M (cards.getD (chosenIdx cards d) dummyCard) now d).2.1.1
            LastTxLongitude :=
              some (branchData cfg M (cards.getD (chosenIdx cards d) dummyCard) now d).2.1.2 } :=
      getD_set_self hidx _ _
    refine ⟨⟨?_, ?_, ?_⟩, ⟨?_, ?_, ?_⟩, ?_, ?_⟩
    · rw [hset]
      rfl
    · rw [hset]
      rfl
    · rw [hset]
      rfl
    · rw [hset]
    · rw [hset]
    · rw [hset]
    · exact List.length_set ..
    · intro j hj
      exact getD_set_ne (fun hh => hj hh.symm) _ _

/-- C7: witness.  One concrete step over `ℚ`, checked on its first
conjunct. -/
theorem C7_witness :
    ((stepBody defaultConfig opsQ [cardNormal] 0 drawsNormal 7).cards.getD 0
          dummyCard).LastTxTimestamp
      = some (stepBody defaultConfig opsQ [cardNormal] 0 drawsNormal 7).txn.Timestamp := by
  have h := C7_state_update defaultConfig opsQ [cardNormal] 0 drawsNormal 7
    (stepBody defaultConfig opsQ [cardNormal] 0 drawsNormal 7) rfl
  have h0 : chosenIdx [cardNormal] drawsNormal = 0 := rfl
  have := h.1.1
  rwa [h0] at this

/-! ## Claim C10: falsy prior-transaction guard -/

/-- C10: on the fraud path, a card whose stored last-transaction latitude is
exactly `0` (with a prior timestamp present) skips the whole velocity check,
including its time-advancement fallback: the shared clock and the emitted
record keep the incoming `now` unchanged. -/
theorem C10_zero_latitude_guard (cfg : Config α) (M : MathOps α)
    (cards : List (Card α)) (now ts : α) (d : StepDraws α) (u : ℕ)
    (res : StepResult α)
    (hts : (cards.getD (chosenIdx cards d) dummyCard).LastTxTimestamp = some ts)
    (hla : (cards.getD (chosenIdx cards d) dummyCard).LastTxLatitude = some 0)
    (hcomp : (cards.getD (chosenIdx cards d) dummyCard).IsCompromised = true)
    (hroll : d.fraudRoll < cfg.FRAUD_INJECTION_PROBABILITY)
    (h : step cfg M cards now d u = some res) :
    res.txn.IsFraud = true ∧ res.now = now ∧ res.txn.Timestamp = now := by
  by_cases he : cards.isEmpty
  · simp [step, he] at h
  · simp only [step, he, Bool.false_eq_true, if_false, Option.some.injEq] at h
    subst h
    have hflag : fraudFlag cfg (cards.getD (chosenIdx cards d) dummyCard) d = true := by
      unfold fraudFlag
      rw [hcomp]
      simpa using hroll
    have hupd : ∀ mlat mlon : α,
        fraudTimeUpdate cfg M (cards.getD (chosenIdx cards d) dummyCard) now mlat mlon d
          = now := by
      intro mlat mlon
      unfold fraudTimeUpdate
      rw [hts, hla]
      simp
    have hbranch : (branchData cfg M (cards.getD (chosenIdx cards d) dummyCard) now d).2.2
        = now := by
      unfold branchData
      rw [hflag]
      simpa using hupd _ _
    exact ⟨hflag, hbranch, hbranch⟩

/-- C10: witness.  A concrete compromised card with stored latitude `0`: the
fraud-path step leaves the clock at its incoming value `12`. -/
theorem C10_witness :
    ((stepBody defaultConfig opsQ [cardZeroLat] 12 drawsFraud 7).txn.IsFraud = true ∧
        (stepBody defaultConfig opsQ [cardZeroLat] 12 drawsFraud 7).now = 12 ∧
        (stepBody defaultConfig opsQ [cardZeroLat] 12 drawsFraud 7).txn.Timestamp = 12) := by
  refine C10_zero_latitude_guard defaultConfig opsQ [cardZeroLat] 12 5 drawsFraud 7
    (stepBody defaultConfig opsQ [cardZeroLat] 12 drawsFraud 7) rfl rfl rfl ?_ rfl
  norm_num [drawsFraud, defaultConfig]

end CardSentry

namespace CardSentry

variable {α : Type} [LinearOrderedField α] [FloorRing α]

/-! ## Claim C4: time advancement on the non-forcing fraud paths -/

/-- C4: counterexample.  A fraudulent transaction on a compromised card with
no prior transaction is a non-forcing fraud case, yet the clock is left
unchanged at `0` instead of advancing by the expovariate increment `1` the
claim requires. -/
theorem C4_counterexample :
    ((step defaultConfig opsQ [cardComp] 0 drawsFraud 7).map fun r => r.txn.IsFraud)
        = some true ∧
      ((step defaultConfig opsQ [cardComp] 0 drawsFraud 7).map fun r => r.now)
        = some 0 ∧
      (0 : ℚ) ≠ 0 + drawsFraud.expDelay := by
  refine ⟨?_, ?_, by norm_num [drawsFraud]⟩
  · show some (stepBody defaultConfig opsQ [cardComp] 0 drawsFraud 7).txn.IsFraud = _
    show some (fraudFlag defaultConfig cardComp drawsFraud) = _
    norm_num [fraudFlag, cardComp, drawsFraud, defaultConfig]
  · show some (stepBody defaultConfig opsQ [cardComp] 0 drawsFraud 7).now = _
    show some (branchData defaultConfig opsQ cardComp 0 drawsFraud).2.2 = _
    have hflag : fraudFlag defaultConfig cardComp drawsFraud = true := by
      norm_num [fraudFlag, cardComp, drawsFraud, defaultConfig]
    unfold branchData
    rw [hflag]
    rfl

/-- C4: amended.  On the fraud path the clock advances by the expovariate
increment exactly in the prior-present, positive-latitude,
non-positive-elapsed-time case; in every other non-forcing case (no prior
transaction, falsy stored latitude, implied velocity already at or above
the threshold, or failed 50% roll) the clock is left unchanged. -/
theorem C4_fraud_time_amended (cfg : Config α) (M : MathOps α) (card : Card α)
    (now mlat mlon : α) (d : StepDraws α) :
    (card.LastTxTimestamp = none →
        fraudTimeUpdate cfg M card now mlat mlon d = now) ∧
      (card.LastTxLatitude = none →
        fraudTimeUpdate cfg M card now mlat mlon d = now) ∧
      (∀ ts, card.LastTxTimestamp = some ts → card.LastTxLatitude = some 0 →
        fraudTimeUpdate cfg M card now mlat mlon d = now) ∧
      (∀ ts la, card.LastTxTimestamp = some ts → card.LastTxLatitude = some la →
        la ≠ 0 → now - ts ≤ 0 →
        fraudTimeUpdate cfg M card now mlat mlon d = now + d.expDelay) ∧
      (∀ ts la, card.LastTxTimestamp = some ts → card.LastTxLatitude = some la →
        la ≠ 0 → 0 < now - ts →
        ¬(haversine M la (card.LastTxLongitude.getD 0) mlat mlon / (now - ts) * 3600
              < cfg.HIGH_VELOCITY_THRESHOLD_KMH ∧ d.forceRoll < 1 / 2) →
        fraudTimeUpdate cfg M card now mlat mlon d = now) := by
  refine ⟨?_, ?_, ?_, ?_, ?_⟩
  · intro h
    unfold fraudTimeUpdate
    rw [h]
  · intro h
    unfold fraudTimeUpdate
    rw [h]
    rcases card.LastTxTimestamp with _ | ts <;> rfl
  · intro ts hts hla
    unfold fraudTimeUpdate
    rw [hts, hla]
    simp
  · intro ts la hts hla hla0 hd
    unfold fraudTimeUpdate
    rw [hts, hla]
    simp only [if_neg hla0, if_neg (not_lt.mpr hd)]
  · intro ts la hts hla hla0 hd hcond
    unfold fraudTimeUpdate
    rw [hts, hla]
    simp only [if_neg hla0, if_pos hd, if_neg hcond]

/-- C4: witness.  A compromised card with a prior transaction at the current
clock value (elapsed time `0`): the clock advances by the expovariate
increment. -/
theorem C4_witness :
    fraudTimeUpdate defaultConfig opsQ cardPrior 0 3 5 drawsFraud
      = 0 + drawsFraud.expDelay :=
  (C4_fraud_time_amended defaultConfig opsQ cardPrior 0 3 5 drawsFraud).2.2.2.1
    0 1 rfl rfl (by norm_num) (by norm_num)

end CardSentry

namespace CardSentry

variable {α : Type} [LinearOrderedField α] [FloorRing α]

/-! ## Claim C1: the velocity-forcing clock rewrite.
The concrete counterexample and witness, which evaluate the exact real
haversine, appear at the end of the file after the real-analysis lemmas. -/

/-- C1: amended.  On the forcing branch the clock is rewritten to
`priorTimestamp + max(1, secondsRequiredForThresholdVelocity * factor)`
with `factor = 1/2 + (2/5) * delayU ∈ [0.5, 0.9]`; whenever the unclamped
delay `required * factor` is at least 1 second, the clamp is inactive, the
claimed formula holds exactly, and the implied velocity after the rewrite
equals `threshold / factor`, which strictly exceeds the threshold. -/
theorem C1_forced_rewrite_amended (cfg : Config α) (M : MathOps α) (card : Card α)
    (now mlat mlon ts la : α) (d : StepDraws α)
    (hts : card.LastTxTimestamp = some ts)
    (hla : card.LastTxLatitude = some la) (hla0 : la ≠ 0)
    (hdelta : 0 < now - ts)
    (hT : 0 < cfg.HIGH_VELOCITY_THRESHOLD_KMH)
    (hu0 : 0 ≤ d.delayU) (hu1 : d.delayU ≤ 1)
    (hvel : haversine M la (card.LastTxLongitude.getD 0) mlat mlon / (now - ts) * 3600
        < cfg.HIGH_VELOCITY_THRESHOLD_KMH)
    (hroll : d.forceRoll < 1 / 2)
    (hclamp : 1 ≤ (haversine M la (card.LastTxLongitude.getD 0) mlat mlon
        / cfg.HIGH_VELOCITY_THRESHOLD_KMH * 3600) * (1 / 2 + (2 / 5) * d.delayU)) :
    fraudTimeUpdate cfg M card now mlat mlon d
        = ts + (haversine M la (card.LastTxLongitude.getD 0) mlat mlon
            / cfg.HIGH_VELOCITY_THRESHOLD_KMH * 3600) * (1 / 2 + (2 / 5) * d.delayU) ∧
      cfg.HIGH_VELOCITY_THRESHOLD_KMH
        < haversine M la (card.LastTxLongitude.getD 0) mlat mlon
            / (fraudTimeUpdate cfg M card now mlat mlon d - ts) * 3600 := by
  set D := haversine M la (card.LastTxLongitude.getD 0) mlat mlon with hD
  set req := D / cfg.HIGH_VELOCITY_THRESHOLD_KMH * 3600 with hreq
  set f := 1 / 2 + (2 / 5) * d.delayU with hf
  have hf0 : 0 < f := by rw [hf]; nlinarith
  have hf1 : f ≤ 9 / 10 := by rw [hf]; nlinarith
  have hreqf : 0 < req * f := lt_of_lt_of_le one_pos hclamp
  have hreqpos : 0 < req := by
    by_contra hc
    push_neg at hc
    have hle : req * f ≤ 0 := mul_nonpos_iff.mpr (Or.inr ⟨hc, hf0.le⟩)
    linarith
  have hDpos : 0 < D := by
    have h36 : (0 : α) < 3600 := by norm_num
    by_contra hc
    push_neg at hc
    have : req ≤ 0 := by
      rw [hreq]
      apply mul_nonpos_of_nonpos_of_nonneg
      · exact div_nonpos_of_nonpos_of_nonneg hc hT.le
      · norm_num
    linarith
  have huni : uniform (req * (1 / 2)) (req * (9 / 10)) d.delayU = req * f := by
    rw [hf]; unfold uniform; ring
  have hmax : max (1 : α) (req * f) = req * f := max_eq_right hclamp
  have hupd : fraudTimeUpdate cfg M card now mlat mlon d = ts + req * f := by
    unfold fraudTimeUpdate
    rw [hts, hla]
    simp only [if_neg hla0, if_pos hdelta, if_pos (show _ ∧ _ from ⟨hvel, hroll⟩)]
    rw [← hD, ← hreq, huni, hmax]
  refine ⟨by rw [hupd], ?_⟩
  rw [hupd]
  have hsub : ts + req * f - ts = req * f := by ring
  rw [hsub]
  have hTne : cfg.HIGH_VELOCITY_THRESHOLD_KMH ≠ 0 := hT.ne'
  have hkey : D / (req * f) * 3600 = cfg.HIGH_VELOCITY_THRESHOLD_KMH / f := by
    rw [hreq]
    field_simp
    ring
  rw [hkey]
  rw [lt_div_iff₀ hf0]
  have hflt : f < 1 := lt_of_le_of_lt hf1 (by norm_num)
  nlinarith [mul_lt_mul_of_pos_left hflt hT]

end CardSentry

namespace CardSentry

variable {α : Type} [LinearOrderedField α] [FloorRing α]

/-! ## Claim C8: determinism under seeding -/

/-- A step with the normal branch forced (fraud flag false) produces the
record at `now + expDelay` and carries its uuid verbatim. -/
theorem stepBody_timestamp_normal (cfg : Config α) (M : MathOps α)
    (cards : List (Card α)) (now : α) (d : StepDraws α) (u : ℕ)
    (hff : fraudFlag cfg (cards.getD (chosenIdx cards d) dummyCard) d = false) :
    (stepBody cfg M cards now d u).txn.Timestamp = now + d.expDelay ∧
      (stepBody cfg M cards now d u).txn.TransactionID = u := by
  constructor
  · show (branchData cfg M (cards.getD (chosenIdx cards d) dummyCard) now d).2.2 = _
    unfold branchData
    simp only [hff, Bool.false_eq_true, if_false]
  · rfl

/-- The `drawsNormal` fixture forces the normal branch on every card. -/
theorem drawsNormal_flag (c : Card ℚ) : fraudFlag defaultConfig c drawsNormal = false := by
  unfold fraudFlag
  rw [show drawsNormal.fraudRoll = (1 / 2 : ℚ) from rfl]
  rw [show (defaultConfig : Config ℚ).FRAUD_INJECTION_PROBABILITY = 3 / 100 from rfl]
  rw [decide_eq_false_iff_not.mpr (by norm_num)]
  exact Bool.and_false _

/-- The loop's seeded outcome is independent of the uuid stream: two runs of
the loop from the same state with the same seeded draws agree on every record
field except `TransactionID`. -/
theorem runLoop_sansId (cfg : Config α) (M : MathOps α) :
    ∀ (steps1 steps2 : List (StepDraws α × ℕ)) (cards : List (Card α)) (now : α),
      steps1.map Prod.fst = steps2.map Prod.fst →
        (runLoop cfg M steps1 cards now).map recordSansId
          = (runLoop cfg M steps2 cards now).map recordSansId := by
  intro steps1
  induction steps1 with
  | nil =>
    intro steps2 cards now h
    cases steps2 with
    | nil => rfl
    | cons p t => simp at h
  | cons p t ih =>
    intro steps2 cards now h
    cases steps2 with
    | nil => simp at h
    | cons q t2 =>
      obtain ⟨d1, u1⟩ := p
      obtain ⟨d2, u2⟩ := q
      simp only [List.map_cons, List.cons.injEq] at h
      obtain ⟨hd, ht⟩ := h
      subst hd
      by_cases he : cards.isEmpty
      · simp [runLoop, step, he]
      · simp only [runLoop, step, he, Bool.false_eq_true, if_false]
        simp only [List.map_cons]
        have hcards : (stepBody cfg M cards now d1 u1).cards
            = (stepBody cfg M cards now d1 u2).cards := rfl
        have hnow : (stepBody cfg M cards now d1 u1).now
            = (stepBody cfg M cards now d1 u2).now := rfl
        have htxn : recordSansId (stepBody cfg M cards now d1 u1).txn
            = recordSansId (stepBody cfg M cards now d1 u2).txn := rfl
        rw [htxn, hcards, hnow]
        exact congrArg _ (ih t2 _ _ ht)

/-- C8: counterexample.  Two runs with identical seeded draws but different
wall-clock start times (the clock is initialized from `datetime.now`, source
line 92, not from the seed) and different uuid4 draws (source line 151, not
taken from the seeded generator) differ in their `Timestamp` and
`TransactionID` fields. -/
theorem C8_counterexample :
    ((simulate defaultConfig opsQ [initDrawsA] 0 [(drawsNormal, 7)]).map
        fun r => r.Timestamp) = [1] ∧
      ((simulate defaultConfig opsQ [initDrawsA] 100 [(drawsNormal, 8)]).map
        fun r => r.Timestamp) = [101] ∧
      ((simulate defaultConfig opsQ [initDrawsA] 0 [(drawsNormal, 7)]).map
        fun r => r.TransactionID) = [7] ∧
      ((simulate defaultConfig opsQ [initDrawsA] 0 [(drawsNormal, 8)]).map
        fun r => r.TransactionID) = [8] ∧
      (1 : ℚ) ≠ 101 ∧ (7 : ℕ) ≠ 8 := by
  have hcards : ∀ t0 : ℚ, ∀ u : ℕ,
      simulate defaultConfig opsQ [initDrawsA] t0 [(drawsNormal, u)]
        = [(stepBody defaultConfig opsQ (initPopulation defaultConfig [initDrawsA])
            t0 drawsNormal u).txn] := by
    intro t0 u
    rfl
  have hts : ∀ t0 : ℚ, ∀ u : ℕ,
      (stepBody defaultConfig opsQ (initPopulation defaultConfig [initDrawsA])
          t0 drawsNormal u).txn.Timestamp = t0 + 1 := by
    intro t0 u
    have h := (stepBody_timestamp_normal defaultConfig opsQ
      (initPopulation defaultConfig [initDrawsA]) t0 drawsNormal u
      (drawsNormal_flag _)).1
    rw [h]
    rfl
  have hid : ∀ t0 : ℚ, ∀ u : ℕ,
      (stepBody defaultConfig opsQ (initPopulation defaultConfig [initDrawsA])
          t0 drawsNormal u).txn.TransactionID = u := fun _ _ => rfl
  refine ⟨?_, ?_, ?_, ?_, by norm_num, by norm_num⟩
  · rw [hcards 0 7, List.map_cons, List.map_nil, hts 0 7]
    norm_num
  · rw [hcards 100 8, List.map_cons, List.map_nil, hts 100 8]
    norm_num
  · rw [hcards 0 7, List.map_cons, List.map_nil, hid 0 7]
  · rw [hcards 0 8, List.map_cons, List.map_nil, hid 0 8]

/-- C8: amended.  Fixing the seed fixes every seeded draw, so two runs with
identical configuration, identical seeded draw streams AND identical initial
clock values produce records that agree on every field except
`TransactionID`, which comes from `uuid4` and is not derived from the seeded
generator (and the two timestamps additionally require equal wall-clock
start values, since the initial clock is `datetime.now`, not seeded). -/
theorem C8_determinism_amended (cfg : Config α) (M : MathOps α)
    (initDs : List (InitDraws α)) (t0 : α)
    (steps1 steps2 : List (StepDraws α × ℕ))
    (h : steps1.map Prod.fst = steps2.map Prod.fst) :
    (simulate cfg M initDs t0 steps1).map recordSansId
      = (simulate cfg M initDs t0 steps2).map recordSansId :=
  runLoop_sansId cfg M steps1 steps2 (initPopulation cfg initDs) t0 h

/-- C8: witness.  Same seeded draws, uuid streams `7` and `8`: all fields
but `TransactionID` agree. -/
theorem C8_witness :
    (simulate defaultConfig opsQ [initDrawsA] 0 [(drawsNormal, 7)]).map recordSansId
      = (simulate defaultConfig opsQ [initDrawsA] 0 [(drawsNormal, 8)]).map
          recordSansId :=
  C8_determinism_amended defaultConfig opsQ [initDrawsA] 0
    [(drawsNormal, 7)] [(drawsNormal, 8)] rfl

/-! ## Claim C9: behaviour under invalid configuration -/

/-- C9: the source performs no configuration validation.  With the
out-of-range compromise probability `1.5` the generation loop runs to
completion and emits every record (here 2 of 2), instead of failing fast
before the loop with no records; and with a zero-card population the loop
emits nothing because the failure (`random.choice` on an empty list) happens
inside the first iteration, not before the loop. -/
theorem C9_no_validation :
    (simulate cfgBadProb opsQ [initDrawsA] 0
        [(drawsNormal, 7), (drawsNormal, 8)]).length = 2 ∧
      simulate { defaultConfig with NUM_CARDS := 0 } opsQ ([] : List (InitDraws ℚ))
        0 [(drawsNormal, 7)] = [] := by
  constructor
  · rfl
  · rfl

end CardSentry

namespace CardSentry

/-! ## Claim C6: the longitude-conversion denominator at the poles -/

/-- Under the exact real operations the unguarded denominator
`111.1 * cos(radians(lat))` vanishes at both poles. -/
theorem lonDegDenominator_pole :
    lonDegDenominator realOps 90 = 0 ∧ lonDegDenominator realOps (-90) = 0 := by
  constructor
  · show (1111 / 10 : ℝ) * Real.cos (90 * Real.pi / 180) = 0
    rw [show (90 : ℝ) * Real.pi / 180 = Real.pi / 2 by ring, Real.cos_pi_div_two,
      mul_zero]
  · show (1111 / 10 : ℝ) * Real.cos (-90 * Real.pi / 180) = 0
    rw [show (-90 : ℝ) * Real.pi / 180 = -(Real.pi / 2) by ring, Real.cos_neg,
      Real.cos_pi_div_two, mul_zero]

/-- C6: counterexample.  The denominator of the longitude degrees-per-km
conversion is not clamped away from zero: at latitude exactly `90` (or
`-90`) it is exactly `111.1 * cos(pi/2) = 0` under the exact cosine, so no
guard of the claimed kind exists in the code. -/
theorem C6_counterexample :
    lonDegDenominator realOps 90 = 0 ∧ lonDegDenominator realOps (-90) = 0 :=
  lonDegDenominator_pole

/-- C6: amended.  The conversion applies no clamp: its denominator is
exactly `111.1 * cos(radians(lat))`, which vanishes at latitude `±90` under
exact cosine (IEEE doubles return the tiny nonzero `cos(radians(90)) ≈
6.1e-17` there, which is why the Python script does not fault in practice);
for every latitude strictly inside `(-90, 90)` the denominator is nonzero,
and the sampler returns in-range coordinates for every input latitude,
the poles included. -/
theorem C6_no_guard_amended :
    (lonDegDenominator realOps 90 = 0 ∧ lonDegDenominator realOps (-90) = 0) ∧
      (∀ lat : ℝ, -90 < lat → lat < 90 → lonDegDenominator realOps lat ≠ 0) ∧
      (∀ lat lon maxd u1 u2 : ℝ,
        (-90 ≤ (generate_location_around realOps lat lon maxd u1 u2).1 ∧
            (generate_location_around realOps lat lon maxd u1 u2).1 ≤ 90) ∧
          (-180 ≤ (generate_location_around realOps lat lon maxd u1 u2).2 ∧
            (generate_location_around realOps lat lon maxd u1 u2).2 ≤ 180)) := by
  refine ⟨lonDegDenominator_pole, ?_, ?_⟩
  · intro lat h1 h2
    have hpi := Real.pi_pos
    have hcos : 0 < Real.cos (lat * Real.pi / 180) := by
      apply Real.cos_pos_of_mem_Ioo
      constructor
      · show -(Real.pi / 2) < lat * Real.pi / 180
        nlinarith
      · show lat * Real.pi / 180 < Real.pi / 2
        nlinarith
    show (1111 / 10 : ℝ) * Real.cos (lat * Real.pi / 180) ≠ 0
    positivity
  · intro lat lon maxd u1 u2
    simp only [generate_location_around]
    exact ⟨pyround6_bounds_lat _,
      pyround6_bounds_lon (pymod_nonneg _ (by norm_num)) (pymod_lt _ (by norm_num))⟩

/-- C6: witness.  At the equator the denominator is nonzero. -/
theorem C6_witness : lonDegDenominator realOps 0 ≠ 0 :=
  C6_no_guard_amended.2.1 0 (by norm_num) (by norm_num)

end CardSentry

namespace CardSentry

variable {α : Type} [LinearOrderedField α] [FloorRing α]

/-! ## Claim C2: analytic helper lemmas -/

/-- For nonnegative arguments `arctan` is below the identity. -/
theorem arctan_le_self {x : ℝ} (hx : 0 ≤ x) : Real.arctan x ≤ x := by
  rcases eq_or_lt_of_le hx with h | hpos
  · rw [← h, Real.arctan_zero]
  · by_cases hb : x < Real.pi / 2
    · have h1 : x < Real.tan x := Real.lt_tan hpos hb
      have h2 : Real.arctan x < Real.arctan (Real.tan x) := Real.arctan_strictMono h1
      rw [Real.arctan_tan (by linarith [Real.pi_pos]) hb] at h2
      exact le_of_lt h2
    · have h3 := Real.arctan_lt_pi_div_two x
      linarith [not_lt.mp hb]

/-- Rounding to 6 decimal places moves a value by at most `5e-7`. -/
theorem abs_pyround_sub (x : α) : |pyround x 6 - x| ≤ 1 / 2000000 := by
  have h := abs_sub_round (x * 10 ^ 6)
  have h10 : (0 : α) < 10 ^ 6 := by norm_num
  have hrw : pyround x 6 - x = (((round (x * 10 ^ 6) : ℤ) : α) - x * 10 ^ 6) / 10 ^ 6 := by
    unfold pyround
    field_simp
    ring
  rw [hrw, abs_div, abs_of_pos h10]
  rw [div_le_iff₀ h10]
  calc |((round (x * 10 ^ 6) : ℤ) : α) - x * 10 ^ 6|
      = |x * 10 ^ 6 - ((round (x * 10 ^ 6) : ℤ) : α)| := abs_sub_comm _ _
    _ ≤ 1 / 2 := h
    _ ≤ 1 / 2000000 * 10 ^ 6 := by norm_num

/-- A symmetric uniform draw lies within its radius. -/
theorem abs_uniform_symm_le {r u : α} (hr : 0 ≤ r) (h0 : 0 ≤ u) (h1 : u ≤ 1) :
    |uniform (-r) r u| ≤ r := by
  unfold uniform
  rw [abs_le]
  constructor
  · nlinarith
  · nlinarith

/-- Lower bound for `sin` on a small positive interval, via the cubic
Taylor bound. -/
theorem sin_lower {x lo hi : ℝ} (h0 : 0 < lo) (hlo : lo ≤ x) (hhi : x ≤ hi)
    (hhi1 : hi ≤ 1) : lo - hi ^ 3 / 4 ≤ Real.sin x := by
  have hs := Real.sin_gt_sub_cube (lt_of_lt_of_le h0 hlo) (le_trans hhi hhi1)
  have hx3 : x ^ 3 ≤ hi ^ 3 := pow_le_pow_left₀ (by linarith) hhi 3
  nlinarith

/-- Quadratic lower bound for `cos` from an absolute-value bound. -/
theorem cos_lower {x : ℝ} (b : ℝ) (h : |x| ≤ b) : 1 - b ^ 2 / 2 ≤ Real.cos x := by
  have h1 := Real.one_sub_sq_div_two_le_cos (x := x)
  have h2 : x ^ 2 ≤ b ^ 2 := sq_le_sq' (by linarith [(abs_le.mp h).1]) (abs_le.mp h).2
  nlinarith

/-- Upper bound for `cos` from a lower bound on `sin` at the half angle. -/
theorem cos_upper {x s : ℝ} (hs : 0 ≤ s) (hsin : s ≤ Real.sin (x / 2)) :
    Real.cos x ≤ 1 - 2 * s ^ 2 := by
  have h := Real.sin_sq_eq_half_sub (x / 2)
  rw [show 2 * (x / 2) = x by ring] at h
  nlinarith

end CardSentry

namespace CardSentry

/-- The haversine under the exact real operations, written out. -/
theorem haversine_realOps_eq (lat1 lon1 lat2 lon2 : ℝ) :
    haversine realOps lat1 lon1 lat2 lon2
      = 6371 * (2 * Real.arctan (Real.sqrt
          (Real.sin ((lat2 - lat1) * Real.pi / 180 / 2) ^ 2 +
            Real.cos (lat1 * Real.pi / 180) * Real.cos (lat2 * Real.pi / 180) *
              Real.sin ((lon2 - lon1) * Real.pi / 180 / 2) ^ 2) /
          Real.sqrt (1 -
            (Real.sin ((lat2 - lat1) * Real.pi / 180 / 2) ^ 2 +
              Real.cos (lat1 * Real.pi / 180) * Real.cos (lat2 * Real.pi / 180) *
                Real.sin ((lon2 - lon1) * Real.pi / 180 / 2) ^ 2)))) := rfl

/-- The arctan part of the distance exceeds `30 / 6371` whenever the
haversine intermediate `a` is between `3.03e-5` and `3.4e-5`. -/
theorem arctan_part_gt {a : ℝ} (hlo : 0.0000303 ≤ a) (hhi : a ≤ 0.000034) :
    (30 / 6371 : ℝ) < Real.arctan (Real.sqrt a / Real.sqrt (1 - a)) := by
  have h1a : (0 : ℝ) < 1 - a := by linarith
  have hs1a_pos : 0 < Real.sqrt (1 - a) := Real.sqrt_pos.mpr h1a
  have hs1a_le : Real.sqrt (1 - a) ≤ 1 := Real.sqrt_le_one.mpr (by linarith)
  have hsa : (0.0055 : ℝ) ≤ Real.sqrt a :=
    (Real.le_sqrt (by norm_num) (by linarith)).mpr (by nlinarith)
  have ht : (0.0055 : ℝ) ≤ Real.sqrt a / Real.sqrt (1 - a) := by
    rw [le_div_iff₀ hs1a_pos]
    nlinarith
  have hy0a : (0 : ℝ) < 30 / 6371 := by norm_num
  have hy0b : (30 / 6371 : ℝ) < 0.0048 := by norm_num
  have hcosy : (0.999 : ℝ) ≤ Real.cos (30 / 6371) := by
    have h := cos_lower (x := (30 / 6371 : ℝ)) 0.0048
      (abs_le.mpr ⟨by norm_num, by norm_num⟩)
    nlinarith
  have hsiny : Real.sin (30 / 6371 : ℝ) < 0.0048 :=
    lt_trans (Real.sin_lt hy0a) hy0b
  have htan : Real.tan (30 / 6371 : ℝ) < 0.0055 := by
    rw [Real.tan_eq_sin_div_cos, div_lt_iff₀ (by linarith)]
    nlinarith
  have hpi3 := Real.pi_gt_three
  have harc : Real.arctan (Real.tan (30 / 6371 : ℝ)) = 30 / 6371 :=
    Real.arctan_tan (by linarith) (by linarith)
  calc (30 / 6371 : ℝ) = Real.arctan (Real.tan (30 / 6371)) := harc.symm
    _ < Real.arctan (Real.sqrt a / Real.sqrt (1 - a)) :=
        Real.arctan_strictMono (lt_of_lt_of_le htan ht)

set_option maxHeartbeats 2000000 in
/-- The distance between home `(25, 0)` and the box-corner merchant
`(25.450045, 0.49)` exceeds 60 km. -/
theorem haversine_corner_gt_60 :
    (60 : ℝ) < haversine realOps 25 0 (25450045 / 1000000) (49 / 100) := by
  have hplo := Real.pi_gt_d6
  have hphi := Real.pi_lt_d6
  rw [haversine_realOps_eq]
  have hx1lo : (0.0039273 : ℝ) ≤ ((25450045 : ℝ) / 1000000 - 25) * Real.pi / 180 / 2 := by
    nlinarith
  have hx1hi : ((25450045 : ℝ) / 1000000 - 25) * Real.pi / 180 / 2 ≤ 0.0039274 := by
    nlinarith
  have hsin1 : (0.00392728 : ℝ)
      ≤ Real.sin (((25450045 : ℝ) / 1000000 - 25) * Real.pi / 180 / 2) := by
    have h := sin_lower (show (0 : ℝ) < 0.0039273 by norm_num) hx1lo hx1hi (by norm_num)
    nlinarith
  have hsinsq1 : (0.0000154235 : ℝ)
      ≤ Real.sin (((25450045 : ℝ) / 1000000 - 25) * Real.pi / 180 / 2) ^ 2 := by
    nlinarith
  have hslsq1hi : Real.sin (((25450045 : ℝ) / 1000000 - 25) * Real.pi / 180 / 2) ^ 2
      ≤ 0.0000155 := by
    have h := Real.sin_sq_le_sq (x := ((25450045 : ℝ) / 1000000 - 25) * Real.pi / 180 / 2)
    nlinarith
  have hcos1 : (0.904807 : ℝ) ≤ Real.cos (25 * Real.pi / 180) := by
    have h := cos_lower (x := (25 : ℝ) * Real.pi / 180) 0.4363324
      (abs_le.mpr ⟨by nlinarith, by nlinarith⟩)
    nlinarith
  have hcos1hi : Real.cos (25 * Real.pi / 180) ≤ 1 := Real.cos_le_one _
  have hcos2 : (0.901348 : ℝ) ≤ Real.cos ((25450045 : ℝ) / 1000000 * Real.pi / 180) := by
    have h := cos_lower (x := (25450045 : ℝ) / 1000000 * Real.pi / 180) 0.4441872
      (abs_le.mpr ⟨by nlinarith, by nlinarith⟩)
    nlinarith
  have hcos2hi : Real.cos ((25450045 : ℝ) / 1000000 * Real.pi / 180) ≤ 1 :=
    Real.cos_le_one _
  have hx2lo : (0.0042760 : ℝ) ≤ ((49 : ℝ) / 100 - 0) * Real.pi / 180 / 2 := by
    nlinarith
  have hx2hi : ((49 : ℝ) / 100 - 0) * Real.pi / 180 / 2 ≤ 0.0042761 := by
    nlinarith
  have hsin2 : (0.00427598 : ℝ)
      ≤ Real.sin (((49 : ℝ) / 100 - 0) * Real.pi / 180 / 2) := by
    have h := sin_lower (show (0 : ℝ) < 0.0042760 by norm_num) hx2lo hx2hi (by norm_num)
    nlinarith
  have hsinsq2 : (0.0000182839 : ℝ)
      ≤ Real.sin (((49 : ℝ) / 100 - 0) * Real.pi / 180 / 2) ^ 2 := by
    nlinarith
  have hsinsq2hi : Real.sin (((49 : ℝ) / 100 - 0) * Real.pi / 180 / 2) ^ 2
      ≤ 0.0000183 := by
    have h := Real.sin_sq_le_sq (x := ((49 : ℝ) / 100 - 0) * Real.pi / 180 / 2)
    nlinarith
  have hprod : (0.815545 : ℝ)
      ≤ Real.cos (25 * Real.pi / 180)
          * Real.cos ((25450045 : ℝ) / 1000000 * Real.pi / 180) := by
    nlinarith
  have hprodhi : Real.cos (25 * Real.pi / 180)
      * Real.cos ((25450045 : ℝ) / 1000000 * Real.pi / 180) ≤ 1 := by
    nlinarith
  have hterm2 : (0.0000149113 : ℝ)
      ≤ Real.cos (25 * Real.pi / 180)
          * Real.cos ((25450045 : ℝ) / 1000000 * Real.pi / 180)
          * Real.sin (((49 : ℝ) / 100 - 0) * Real.pi / 180 / 2) ^ 2 := by
    nlinarith
  have hterm2hi : Real.cos (25 * Real.pi / 180)
      * Real.cos ((25450045 : ℝ) / 1000000 * Real.pi / 180)
      * Real.sin (((49 : ℝ) / 100 - 0) * Real.pi / 180 / 2) ^ 2 ≤ 0.0000183 := by
    nlinarith
  have harct := arctan_part_gt
    (a := Real.sin (((25450045 : ℝ) / 1000000 - 25) * Real.pi / 180 / 2) ^ 2 +
      Real.cos (25 * Real.pi / 180) * Real.cos ((25450045 : ℝ) / 1000000 * Real.pi / 180) *
        Real.sin (((49 : ℝ) / 100 - 0) * Real.pi / 180 / 2) ^ 2)
    (by linarith) (by linarith)
  linarith

end CardSentry

namespace CardSentry

/-- Numeric facts about the longitude degree-radius at latitude 25 under the
exact real operations: it is positive and at least `0.49` degrees. -/
theorem rLonC2_facts : 0 < rLonC2 ∧ 49 / 100 ≤ rLonC2 := by
  have hplo := Real.pi_gt_d6
  have hphi := Real.pi_lt_d6
  have hpi3 := Real.pi_gt_three
  have hrad : lonDegDenominator realOps 25
      = (1111 / 10 : ℝ) * Real.cos (25 * Real.pi / 180) := rfl
  have hcpos : 0 < Real.cos ((25 : ℝ) * Real.pi / 180) := by
    apply Real.cos_pos_of_mem_Ioo
    constructor
    · show -(Real.pi / 2) < (25 : ℝ) * Real.pi / 180
      nlinarith
    · show (25 : ℝ) * Real.pi / 180 < Real.pi / 2
      nlinarith
  have hsinhalf : (0.2155701 : ℝ) ≤ Real.sin ((25 : ℝ) * Real.pi / 180 / 2) := by
    have hlo : (0.2181661 : ℝ) ≤ (25 : ℝ) * Real.pi / 180 / 2 := by nlinarith
    have hhi : (25 : ℝ) * Real.pi / 180 / 2 ≤ 0.2181662 := by nlinarith
    have h := sin_lower (show (0 : ℝ) < 0.2181661 by norm_num) hlo hhi (by norm_num)
    nlinarith
  have hcub : Real.cos ((25 : ℝ) * Real.pi / 180) ≤ 0.907060 := by
    have h := cos_upper (show (0 : ℝ) ≤ 0.2155701 by norm_num) hsinhalf
    nlinarith
  have hdpos : 0 < lonDegDenominator realOps 25 := by
    rw [hrad]
    positivity
  constructor
  · exact div_pos (by norm_num) hdpos
  · rw [rLonC2, le_div_iff₀ hdpos, hrad]
    nlinarith

/-- The box-corner draws of `drawsC2` are all inside the support of the
random calls they model. -/
theorem drawsC2_valid : ValidStepDraws drawsC2 := by
  obtain ⟨hr_pos, hr_ge⟩ := rLonC2_facts
  unfold ValidStepDraws drawsC2
  refine ⟨by norm_num, by norm_num, by norm_num, by norm_num, by norm_num, by norm_num,
    by norm_num, by norm_num, ?_, ?_, by norm_num, by norm_num, by norm_num, by norm_num,
    by norm_num, by norm_num, by norm_num⟩
  · show 0 ≤ u2C2
    unfold u2C2
    positivity
  · show u2C2 ≤ 1
    unfold u2C2
    rw [div_le_one (by positivity)]
    linarith

/-- The sampler at the box corner: home `(25, 0)`, max distance 50 km,
latitude draw at the box edge, longitude offset `0.49` degrees. -/
theorem locC2_eq : generate_location_around realOps (25 : ℝ) 0 50 1 u2C2
    = (25450045 / 1000000, 49 / 100) := by
  obtain ⟨hr_pos, _⟩ := rLonC2_facts
  have hdenom_ne : lonDegDenominator realOps 25 ≠ 0 := by
    intro h0
    rw [rLonC2, h0] at hr_pos
    norm_num at hr_pos
  simp only [generate_location_around]
  have hdlat : uniform (-(50 / (1111 / 10) : ℝ)) (50 / (1111 / 10)) 1 = 500 / 1111 := by
    norm_num [uniform]
  have hdlon : uniform (-(50 / lonDegDenominator realOps 25))
      (50 / lonDegDenominator realOps 25) u2C2 = 49 / 100 := by
    unfold uniform u2C2 rLonC2
    field_simp
    ring
  rw [hdlat, hdlon]
  have hminmax : max (-90 : ℝ) (min 90 (25 + 500 / 1111)) = 25 + 500 / 1111 := by
    rw [min_eq_right (by norm_num), max_eq_right (by norm_num)]
  have hmod : pymod ((0 : ℝ) + 49 / 100 + 180) 360 = 0 + 49 / 100 + 180 :=
    pymod_eq_self (by norm_num) (by norm_num) (by norm_num)
  rw [hminmax, hmod]
  have hpyr1 : pyround ((25 : ℝ) + 500 / 1111) 6 = 25450045 / 1000000 := by
    rw [pyround_eq_of (z := 25450045) (by norm_num) (by norm_num)]
    norm_num
  have hpyr2 : pyround ((0 : ℝ) + 49 / 100 + 180 - 180) 6 = 49 / 100 := by
    rw [show ((0 : ℝ) + 49 / 100 + 180 - 180) = 49 / 100 by ring]
    rw [pyround_eq_of (z := 490000) (by norm_num) (by norm_num)]
    norm_num
  rw [hpyr1, hpyr2]

/-- C2: counterexample.  A normal (non-fraud) transaction with in-support
draws: home `(25, 0)`, radius draw at the maximal 50 km, latitude offset at
the box edge and longitude offset `0.49` degrees.  The emitted record's
merchant is `(25.450045, 0.49)`, whose haversine distance from home exceeds
60 km — far beyond the claimed 50 km bound and any floating rounding
tolerance. -/
theorem C2_counterexample :
    ValidStepDraws drawsC2 ∧
      ((step defaultConfig realOps [cardC2] 0 drawsC2 7).map fun r =>
          (r.txn.IsFraud, r.txn.HomeLatitude, r.txn.HomeLongitude,
            r.txn.MerchantLatitude, r.txn.MerchantLongitude))
        = some (false, 25, 0, 25450045 / 1000000, 49 / 100) ∧
      (60 : ℝ) < haversine realOps 25 0 (25450045 / 1000000) (49 / 100) ∧
      ¬((60 : ℝ) ≤ 50) := by
  refine ⟨drawsC2_valid, ?_, haversine_corner_gt_60, by norm_num⟩
  have hflag : fraudFlag defaultConfig cardC2 drawsC2 = false := by
    unfold fraudFlag
    rw [show cardC2.IsCompromised = false from rfl]
    exact Bool.false_and _
  have hbranchloc : (branchData defaultConfig realOps cardC2 0 drawsC2).2.1
      = (25450045 / 1000000, 49 / 100) := by
    unfold branchData
    rw [hflag]
    simp only [Bool.false_eq_true, if_false]
    show generate_location_around realOps cardC2.HomeLatitude cardC2.HomeLongitude
        (uniform 0 (defaultConfig : Config ℝ).LOCATION_VARIATION_KM_NORMAL
          drawsC2.radiusU) drawsC2.locU1 drawsC2.locU2 = _
    rw [show uniform (0 : ℝ) ((defaultConfig : Config ℝ).LOCATION_VARIATION_KM_NORMAL)
        drawsC2.radiusU = 50 from by
      show uniform (0 : ℝ) 50 1 = 50
      norm_num [uniform]]
    exact locC2_eq
  show some ((stepBody defaultConfig realOps [cardC2] 0 drawsC2 7).txn.IsFraud,
      (stepBody defaultConfig realOps [cardC2] 0 drawsC2 7).txn.HomeLatitude,
      (stepBody defaultConfig realOps [cardC2] 0 drawsC2 7).txn.HomeLongitude,
      (stepBody defaultConfig realOps [cardC2] 0 drawsC2 7).txn.MerchantLatitude,
      (stepBody defaultConfig realOps [cardC2] 0 drawsC2 7).txn.MerchantLongitude) = _
  have h1 : (stepBody defaultConfig realOps [cardC2] 0 drawsC2 7).txn.IsFraud = false :=
    hflag
  have h2 : (stepBody defaultConfig realOps [cardC2] 0 drawsC2 7).txn.MerchantLatitude
      = 25450045 / 1000000 := by
    show (branchData defaultConfig realOps cardC2 0 drawsC2).2.1.1 = _
    rw [hbranchloc]
  have h3 : (stepBody defaultConfig realOps [cardC2] 0 drawsC2 7).txn.MerchantLongitude
      = 49 / 100 := by
    show (branchData defaultConfig realOps cardC2 0 drawsC2).2.1.2 = _
    rw [hbranchloc]
  rw [h1, h2, h3]
  rfl

end CardSentry

namespace CardSentry

set_option maxHeartbeats 2000000 in
/-- Core geometric bound for the normal path: sampling within the 50 km
degree box around a home in the bootstrap ranges keeps the haversine
distance between home and the (clamped, wrapped, rounded) merchant point
below 100 km — twice the configured radius, covering the `sqrt 2` box
diagonal and the degree-box approximation error. -/
theorem normal_distance_le_100 (lat lon maxd u1 u2 : ℝ)
    (hlat1 : 25 ≤ lat) (hlat2 : lat ≤ 65)
    (hlon1 : -125 ≤ lon) (hlon2 : lon ≤ 40)
    (hmax0 : 0 ≤ maxd) (hmax : maxd ≤ 50)
    (hu10 : 0 ≤ u1) (hu11 : u1 ≤ 1) (hu20 : 0 ≤ u2) (hu21 : u2 ≤ 1) :
    haversine realOps lat lon
      (generate_location_around realOps lat lon maxd u1 u2).1
      (generate_location_around realOps lat lon maxd u1 u2).2 ≤ 100 := by
  have hplo := Real.pi_gt_d6
  have hphi := Real.pi_lt_d6
  have hpipos := Real.pi_pos
  have hl1lo : (0.43 : ℝ) ≤ lat * Real.pi / 180 := by nlinarith
  have hl1hi : lat * Real.pi / 180 ≤ 1.1344646 := by nlinarith
  have hc_lo : (0.356 : ℝ) ≤ Real.cos (lat * Real.pi / 180) := by
    have h := cos_lower (x := lat * Real.pi / 180) 1.1344646
      (abs_le.mpr ⟨by linarith, hl1hi⟩)
    nlinarith
  have hc_hi : Real.cos (lat * Real.pi / 180) ≤ 1 := Real.cos_le_one _
  have hc_pos : (0 : ℝ) < Real.cos (lat * Real.pi / 180) := by linarith
  have hr1_nonneg : (0 : ℝ) ≤ maxd / (1111 / 10) := by positivity
  have hr1_le : maxd / (1111 / 10) ≤ 0.4500451 := by
    rw [div_le_iff₀ (by norm_num : (0 : ℝ) < 1111 / 10)]
    nlinarith
  have hdenom : lonDegDenominator realOps lat
      = (1111 / 10) * Real.cos (lat * Real.pi / 180) := rfl
  have hdenom_pos : (0 : ℝ) < lonDegDenominator realOps lat := by
    rw [hdenom]
    positivity
  have hr2_nonneg : (0 : ℝ) ≤ maxd / lonDegDenominator realOps lat :=
    div_nonneg hmax0 hdenom_pos.le
  have hr2_le : maxd / lonDegDenominator realOps lat ≤ 1.26418 := by
    rw [div_le_iff₀ hdenom_pos, hdenom]
    nlinarith
  have hcr2 : Real.cos (lat * Real.pi / 180) * (maxd / lonDegDenominator realOps lat)
      ≤ 0.4500451 := by
    have hcalc : Real.cos (lat * Real.pi / 180)
        * (maxd / ((1111 / 10) * Real.cos (lat * Real.pi / 180)))
        = maxd / (1111 / 10) := by
      field_simp
      ring
    rw [hdenom, hcalc]
    exact hr1_le
  have hdlat := abs_uniform_symm_le hr1_nonneg hu10 hu11
  have hdlon := abs_uniform_symm_le hr2_nonneg hu20 hu21
  obtain ⟨hdlat1, hdlat2⟩ := abs_le.mp hdlat
  obtain ⟨hdlon1, hdlon2⟩ := abs_le.mp hdlon
  have hgla1 : (generate_location_around realOps lat lon maxd u1 u2).1
      = pyround (lat + uniform (-(maxd / (1111 / 10))) (maxd / (1111 / 10)) u1) 6 := by
    simp only [generate_location_around]
    rw [min_eq_right (by linarith), max_eq_right (by linarith)]
  have hgla2 : (generate_location_around realOps lat lon maxd u1 u2).2
      = pyround (lon + uniform (-(maxd / lonDegDenominator realOps lat))
          (maxd / lonDegDenominator realOps lat) u2) 6 := by
    simp only [generate_location_around]
    rw [pymod_eq_self (by linarith) (by linarith) (by norm_num)]
    rw [show lon + uniform (-(maxd / lonDegDenominator realOps lat))
        (maxd / lonDegDenominator realOps lat) u2 + 180 - 180
        = lon + uniform (-(maxd / lonDegDenominator realOps lat))
            (maxd / lonDegDenominator realOps lat) u2 from by ring]
  rw [hgla1, hgla2, haversine_realOps_eq]
  set dlat := uniform (-(maxd / (1111 / 10))) (maxd / (1111 / 10)) u1 with hdlatdef
  set dlon := uniform (-(maxd / lonDegDenominator realOps lat))
    (maxd / lonDegDenominator realOps lat) u2 with hdlondef
  set mlat := pyround (lat + dlat) 6 with hmlatdef
  set mlon := pyround (lon + dlon) 6 with hmlondef
  have hmlat_err := abs_pyround_sub (lat + dlat)
  have hmlon_err := abs_pyround_sub (lon + dlon)
  rw [← hmlatdef] at hmlat_err
  rw [← hmlondef] at hmlon_err
  obtain ⟨hme1, hme2⟩ := abs_le.mp hmlat_err
  obtain ⟨hmo1, hmo2⟩ := abs_le.mp hmlon_err
  have hmlat_lat1 : -(0.4500456 : ℝ) ≤ mlat - lat := by linarith
  have hmlat_lat2 : mlat - lat ≤ 0.4500456 := by linarith
  have hmlon_lon1 : -(maxd / lonDegDenominator realOps lat + 1 / 2000000)
      ≤ mlon - lon := by linarith
  have hmlon_lon2 : mlon - lon ≤ maxd / lonDegDenominator realOps lat + 1 / 2000000 := by
    linarith
  clear hdlat1 hdlat2 hdlon1 hdlon2 hgla1 hgla2 hmlat_err hmlon_err hme1 hme2 hmo1
    hmo2 hu10 hu11 hu20 hu21 hmax0 hmax hr1_nonneg hr1_le hl1lo hl1hi hlat1 hlat2
    hlon1 hlon2 hc_lo hdenom hdenom_pos hdlatdef hdlondef hmlatdef hmlondef
  have hm2 : (mlat - lat) ^ 2 ≤ 0.4500456 ^ 2 := sq_le_sq' hmlat_lat1 hmlat_lat2
  have hpi2 : Real.pi ^ 2 ≤ 3.141593 ^ 2 := by nlinarith
  have hx1prod : (mlat - lat) ^ 2 * Real.pi ^ 2 ≤ 0.4500456 ^ 2 * 3.141593 ^ 2 :=
    mul_le_mul hm2 hpi2 (by positivity) (by positivity)
  have hterm1 : Real.sin ((mlat - lat) * Real.pi / 180 / 2) ^ 2 ≤ 0.0000155 := by
    have h := Real.sin_sq_le_sq (x := (mlat - lat) * Real.pi / 180 / 2)
    nlinarith [h, hx1prod]
  have hC2le : Real.cos (mlat * Real.pi / 180) ≤ 1 := Real.cos_le_one _
  have hS2sq := Real.sin_sq_le_sq (x := (mlon - lon) * Real.pi / 180 / 2)
  have hS2nonneg : (0 : ℝ) ≤ Real.sin ((mlon - lon) * Real.pi / 180 / 2) ^ 2 :=
    sq_nonneg _
  have hmo2sq : (mlon - lon) ^ 2
      ≤ (maxd / lonDegDenominator realOps lat + 1 / 2000000) ^ 2 :=
    sq_le_sq' hmlon_lon1 hmlon_lon2
  have hkey : Real.cos (lat * Real.pi / 180)
      * (maxd / lonDegDenominator realOps lat + 1 / 2000000) ^ 2 ≤ 0.56894 := by
    nlinarith [mul_le_mul hcr2 hr2_le hr2_nonneg (by norm_num : (0 : ℝ) ≤ 0.4500451),
      hcr2, hc_hi, hr2_nonneg, hc_pos]
  have hA : Real.cos (lat * Real.pi / 180) * Real.cos (mlat * Real.pi / 180)
      * Real.sin ((mlon - lon) * Real.pi / 180 / 2) ^ 2
      ≤ Real.cos (lat * Real.pi / 180)
          * Real.sin ((mlon - lon) * Real.pi / 180 / 2) ^ 2 := by
    nlinarith [hC2le, hS2nonneg, mul_nonneg hc_pos.le hS2nonneg]
  have hB : Real.cos (lat * Real.pi / 180)
      * Real.sin ((mlon - lon) * Real.pi / 180 / 2) ^ 2
      ≤ Real.cos (lat * Real.pi / 180) * ((mlon - lon) * Real.pi / 180 / 2) ^ 2 := by
    nlinarith [mul_nonneg hc_pos.le (sub_nonneg.mpr hS2sq)]
  have hCbound : Real.cos (lat * Real.pi / 180) * ((mlon - lon) * Real.pi / 180 / 2) ^ 2
      ≤ 0.0000434 := by
    have hprod : Real.cos (lat * Real.pi / 180) * (mlon - lon) ^ 2 ≤ 0.56894 := by
      nlinarith [mul_nonneg hc_pos.le (sub_nonneg.mpr hmo2sq), hkey]
    have hfull : Real.cos (lat * Real.pi / 180) * (mlon - lon) ^ 2 * Real.pi ^ 2
        ≤ 0.56894 * 3.141593 ^ 2 :=
      mul_le_mul hprod hpi2 (by positivity) (by norm_num)
    nlinarith [hfull]
  have hterm2 : Real.cos (lat * Real.pi / 180) * Real.cos (mlat * Real.pi / 180)
      * Real.sin ((mlon - lon) * Real.pi / 180 / 2) ^ 2 ≤ 0.0000434 := by
    linarith
  have ha_hi : Real.sin ((mlat - lat) * Real.pi / 180 / 2) ^ 2 +
      Real.cos (lat * Real.pi / 180) * Real.cos (mlat * Real.pi / 180) *
        Real.sin ((mlon - lon) * Real.pi / 180 / 2) ^ 2 ≤ 0.0000592 := by
    linarith
  have hsa : Real.sqrt (Real.sin ((mlat - lat) * Real.pi / 180 / 2) ^ 2 +
      Real.cos (lat * Real.pi / 180) * Real.cos (mlat * Real.pi / 180) *
        Real.sin ((mlon - lon) * Real.pi / 180 / 2) ^ 2) ≤ 0.0077 := by
    calc Real.sqrt _ ≤ Real.sqrt ((0.0077 : ℝ) ^ 2) := Real.sqrt_le_sqrt (by nlinarith)
      _ = 0.0077 := Real.sqrt_sq (by norm_num)
  have hs1a : (0.995 : ℝ) ≤ Real.sqrt (1 -
      (Real.sin ((mlat - lat) * Real.pi / 180 / 2) ^ 2 +
        Real.cos (lat * Real.pi / 180) * Real.cos (mlat * Real.pi / 180) *
          Real.sin ((mlon - lon) * Real.pi / 180 / 2) ^ 2)) :=
    (Real.le_sqrt (by norm_num) (by linarith)).mpr (by nlinarith)
  have htq : Real.sqrt (Real.sin ((mlat - lat) * Real.pi / 180 / 2) ^ 2 +
      Real.cos (lat * Real.pi / 180) * Real.cos (mlat * Real.pi / 180) *
        Real.sin ((mlon - lon) * Real.pi / 180 / 2) ^ 2) /
      Real.sqrt (1 - (Real.sin ((mlat - lat) * Real.pi / 180 / 2) ^ 2 +
        Real.cos (lat * Real.pi / 180) * Real.cos (mlat * Real.pi / 180) *
          Real.sin ((mlon - lon) * Real.pi / 180 / 2) ^ 2)) ≤ 0.0077 / 0.995 := by
    apply div_le_div (by norm_num) hsa (by norm_num) hs1a
  have harct : Real.arctan (Real.sqrt (Real.sin ((mlat - lat) * Real.pi / 180 / 2) ^ 2 +
      Real.cos (lat * Real.pi / 180) * Real.cos (mlat * Real.pi / 180) *
        Real.sin ((mlon - lon) * Real.pi / 180 / 2) ^ 2) /
      Real.sqrt (1 - (Real.sin ((mlat - lat) * Real.pi / 180 / 2) ^ 2 +
        Real.cos (lat * Real.pi / 180) * Real.cos (mlat * Real.pi / 180) *
          Real.sin ((mlon - lon) * Real.pi / 180 / 2) ^ 2))) ≤ 0.0077 / 0.995 :=
    le_trans (arctan_le_self (by positivity)) htq
  linarith

end CardSentry

namespace CardSentry

variable {α : Type} [LinearOrderedField α] [FloorRing α]

/-- The bootstrap places every home inside the sampling box. -/
theorem initPopulation_homeInRange (cfg : Config α) (ds : List (InitDraws α))
    (hds : ∀ dd ∈ ds, 0 ≤ dd.homeLatU ∧ dd.homeLatU ≤ 1 ∧
      0 ≤ dd.homeLonU ∧ dd.homeLonU ≤ 1) :
    ∀ c ∈ initPopulation cfg ds, HomeInRange c := by
  have h25 : pyround ((25 : α)) 6 = 25 := by
    have := pyround_intCast (α := α) 25 6
    simpa using this
  have h65 : pyround ((65 : α)) 6 = 65 := by
    have := pyround_intCast (α := α) 65 6
    simpa using this
  have h125 : pyround ((-125 : α)) 6 = -125 := by
    have := pyround_intCast (α := α) (-125) 6
    simpa using this
  have h40 : pyround ((40 : α)) 6 = 40 := by
    have := pyround_intCast (α := α) 40 6
    simpa using this
  intro c hc
  simp only [initPopulation, List.mem_map] at hc
  obtain ⟨dd, hdd, rfl⟩ := hc
  obtain ⟨hu0, hu1, hv0, hv1⟩ := hds dd hdd
  have hlat0 : (25 : α) ≤ uniform 25 65 dd.homeLatU := by
    unfold uniform
    nlinarith
  have hlat1 : uniform 25 65 dd.homeLatU ≤ (65 : α) := by
    unfold uniform
    nlinarith
  have hlon0 : (-125 : α) ≤ uniform (-125) 40 dd.homeLonU := by
    unfold uniform
    nlinarith
  have hlon1 : uniform (-125) 40 dd.homeLonU ≤ (40 : α) := by
    unfold uniform
    nlinarith
  refine ⟨?_, ?_, ?_, ?_⟩
  · have h := pyround_mono (α := α) 6 hlat0
    rwa [h25] at h
  · have h := pyround_mono (α := α) 6 hlat1
    rwa [h65] at h
  · have h := pyround_mono (α := α) 6 hlon0
    rwa [h125] at h
  · have h := pyround_mono (α := α) 6 hlon1
    rwa [h40] at h

/-- One step never changes any card's home coordinates. -/
theorem stepBody_homes (cfg : Config α) (M : MathOps α) (cards : List (Card α))
    (now : α) (d : StepDraws α) (u : ℕ)
    (hlen : chosenIdx cards d < cards.length)
    (hall : ∀ c ∈ cards, HomeInRange c) :
    ∀ c ∈ (stepBody cfg M cards now d u).cards, HomeInRange c := by
  have hcard : HomeInRange (cards.getD (chosenIdx cards d) dummyCard) := by
    rw [List.getD_eq_getElem cards dummyCard hlen]
    exact hall _ (List.getElem_mem hlen)
  intro c hc
  rcases List.mem_or_eq_of_mem_set hc with h | rfl
  · exact hall _ h
  · exact hcard

/-- A non-fraud record of one step (over the default configuration and the
exact real operations) has its merchant within 100 km of its home. -/
theorem stepBody_nonfraud_distance (cards : List (Card ℝ)) (now : ℝ)
    (d : StepDraws ℝ) (u : ℕ)
    (hlen : chosenIdx cards d < cards.length)
    (hhome : HomeInRange (cards.getD (chosenIdx cards d) dummyCard))
    (hr0 : 0 ≤ d.radiusU) (hr1 : d.radiusU ≤ 1)
    (ha0 : 0 ≤ d.locU1) (ha1 : d.locU1 ≤ 1)
    (hb0 : 0 ≤ d.locU2) (hb1 : d.locU2 ≤ 1)
    (hnf : (stepBody defaultConfig realOps cards now d u).txn.IsFraud = false) :
    haversine realOps (stepBody defaultConfig realOps cards now d u).txn.HomeLatitude
      (stepBody defaultConfig realOps cards now d u).txn.HomeLongitude
      (stepBody defaultConfig realOps cards now d u).txn.MerchantLatitude
      (stepBody defaultConfig realOps cards now d u).txn.MerchantLongitude ≤ 100 := by
  have hflag : fraudFlag defaultConfig (cards.getD (chosenIdx cards d) dummyCard) d
      = false := hnf
  have hbranch : (branchData defaultConfig realOps
        (cards.getD (chosenIdx cards d) dummyCard) now d).2.1
      = generate_location_around realOps
          (cards.getD (chosenIdx cards d) dummyCard).HomeLatitude
          (cards.getD (chosenIdx cards d) dummyCard).HomeLongitude
          (uniform 0 (defaultConfig : Config ℝ).LOCATION_VARIATION_KM_NORMAL d.radiusU)
          d.locU1 d.locU2 := by
    unfold branchData
    rw [hflag]
    simp only [Bool.false_eq_true, if_false]
  obtain ⟨hh1, hh2, hh3, hh4⟩ := hhome
  have hmax0 : (0 : ℝ) ≤ uniform 0 (defaultConfig : Config ℝ).LOCATION_VARIATION_KM_NORMAL
      d.radiusU := by
    show (0 : ℝ) ≤ uniform 0 50 d.radiusU
    unfold uniform
    nlinarith
  have hmax1 : uniform 0 (defaultConfig : Config ℝ).LOCATION_VARIATION_KM_NORMAL
      d.radiusU ≤ 50 := by
    show uniform (0 : ℝ) 50 d.radiusU ≤ 50
    unfold uniform
    nlinarith
  have hgoal1 : (stepBody defaultConfig realOps cards now d u).txn.MerchantLatitude
      = (generate_location_around realOps
          (cards.getD (chosenIdx cards d) dummyCard).HomeLatitude
          (cards.getD (chosenIdx cards d) dummyCard).HomeLongitude
          (uniform 0 (defaultConfig : Config ℝ).LOCATION_VARIATION_KM_NORMAL d.radiusU)
          d.locU1 d.locU2).1 := by
    show (branchData defaultConfig realOps
        (cards.getD (chosenIdx cards d) dummyCard) now d).2.1.1 = _
    rw [hbranch]
  have hgoal2 : (stepBody defaultConfig realOps cards now d u).txn.MerchantLongitude
      = (generate_location_around realOps
          (cards.getD (chosenIdx cards d) dummyCard).HomeLatitude
          (cards.getD (chosenIdx cards d) dummyCard).HomeLongitude
          (uniform 0 (defaultConfig : Config ℝ).LOCATION_VARIATION_KM_NORMAL d.radiusU)
          d.locU1 d.locU2).2 := by
    show (branchData defaultConfig realOps
        (cards.getD (chosenIdx cards d) dummyCard) now d).2.1.2 = _
    rw [hbranch]
  rw [hgoal1, hgoal2]
  exact normal_distance_le_100
    (cards.getD (chosenIdx cards d) dummyCard).HomeLatitude
    (cards.getD (chosenIdx cards d) dummyCard).HomeLongitude
    (uniform 0 (defaultConfig : Config ℝ).LOCATION_VARIATION_KM_NORMAL d.radiusU)
    d.locU1 d.locU2 hh1 hh2 hh3 hh4 hmax0 hmax1 ha0 ha1 hb0 hb1

/-- Every non-fraud record of any loop run from an in-range population has
its merchant within 100 km of its home. -/
theorem runLoop_nonfraud_distance :
    ∀ (steps : List (StepDraws ℝ × ℕ)) (cards : List (Card ℝ)) (now : ℝ),
      (∀ c ∈ cards, HomeInRange c) →
      (∀ p ∈ steps, LocDrawsInSupport p.1) →
      ∀ txn ∈ runLoop defaultConfig realOps steps cards now, txn.IsFraud = false →
        haversine realOps txn.HomeLatitude txn.HomeLongitude
          txn.MerchantLatitude txn.MerchantLongitude ≤ 100 := by
  intro steps
  induction steps with
  | nil =>
    intro cards now _ _ txn htxn
    simp [runLoop] at htxn
  | cons du ds ih =>
    intro cards now hall hsupp txn htxn hnf
    obtain ⟨dd, uu⟩ := du
    by_cases he : cards.isEmpty
    · simp [runLoop, step, he] at htxn
    · have hlen0 : 0 < cards.length := by
        cases cards with
        | nil => simp [List.isEmpty] at he
        | cons c cs => simp
      have hlen : chosenIdx cards dd < cards.length := Nat.mod_lt _ hlen0
      obtain ⟨hr0, hr1, ha0, ha1, hb0, hb1⟩ := hsupp (dd, uu) (by simp)
      simp only [runLoop, step, he, Bool.false_eq_true, if_false] at htxn
      rcases List.mem_cons.mp htxn with rfl | hmem
      · exact stepBody_nonfraud_distance cards now dd uu hlen
          (by rw [List.getD_eq_getElem cards dummyCard hlen]
              exact hall _ (List.getElem_mem hlen))
          hr0 hr1 ha0 ha1 hb0 hb1 hnf
      · exact ih _ _ (stepBody_homes defaultConfig realOps cards now dd uu hlen hall)
          (fun p hp => hsupp p (List.mem_cons_of_mem _ hp)) txn hmem hnf

/-- C2: amended.  For every emitted non-fraud record of a run (default
configuration, exact real operations, all draws inside the support of the
random calls they model), the haversine distance between the record's home
and merchant coordinates is at most 100 km = 2 x the normal radius maximum.
The claimed 50 km bound fails: the merchant is drawn uniformly in a degree
BOX approximating the 50 km disk, so corner samples reach about
`sqrt 2 * 50 ≈ 71` km (see the counterexample); 100 km is a provable safe
bound covering the box diagonal and the conversion error. -/
theorem C2_nonfraud_distance_amended (initDs : List (InitDraws ℝ)) (t0 : ℝ)
    (steps : List (StepDraws ℝ × ℕ))
    (hinit : ∀ dd ∈ initDs, 0 ≤ dd.homeLatU ∧ dd.homeLatU ≤ 1 ∧
      0 ≤ dd.homeLonU ∧ dd.homeLonU ≤ 1)
    (hsteps : ∀ p ∈ steps, LocDrawsInSupport p.1) :
    ∀ txn ∈ simulate defaultConfig realOps initDs t0 steps, txn.IsFraud = false →
      haversine realOps txn.HomeLatitude txn.HomeLongitude
        txn.MerchantLatitude txn.MerchantLongitude ≤ 100 :=
  runLoop_nonfraud_distance steps _ t0
    (initPopulation_homeInRange defaultConfig initDs hinit) hsteps

/-- C2: witness.  A concrete one-step run with in-support draws; every
non-fraud record of it is within 100 km of its home. -/
theorem C2_witness :
    (∀ dd ∈ [initDrawsAR], (0 : ℝ) ≤ dd.homeLatU ∧ dd.homeLatU ≤ 1 ∧
        0 ≤ dd.homeLonU ∧ dd.homeLonU ≤ 1) ∧
      ∀ txn ∈ simulate defaultConfig realOps [initDrawsAR] 0 [(drawsNormalR, 7)],
        txn.IsFraud = false →
          haversine realOps txn.HomeLatitude txn.HomeLongitude
            txn.MerchantLatitude txn.MerchantLongitude ≤ 100 := by
  refine ⟨?_, ?_⟩
  · intro dd hdd
    simp only [List.mem_singleton] at hdd
    subst hdd
    norm_num [initDrawsAR]
  · exact C2_nonfraud_distance_amended [initDrawsAR] 0 [(drawsNormalR, 7)]
      (by
        intro dd hdd
        simp only [List.mem_singleton] at hdd
        subst hdd
        norm_num [initDrawsAR])
      (by
        intro p hp
        simp only [List.mem_singleton] at hp
        subst hp
        unfold LocDrawsInSupport drawsNormalR
        norm_num)

end CardSentry

namespace CardSentry

/-! ## Claim C1: concrete counterexample and witness under the exact real
operations -/

/-- Haversine of a point with itself under the exact real operations is
exactly `0`: both squared sines vanish, so the arc is `arctan (0 / 1) = 0`. -/
theorem haversine_realOps_self (lat lon : ℝ) : haversine realOps lat lon lat lon = 0 := by
  rw [haversine_realOps_eq]
  norm_num [sub_self, Real.sin_zero, Real.sqrt_zero, Real.sqrt_one, Real.arctan_zero]

/-- The haversine scale factor `6371 * 2` times any arctangent value stays
below `20016` km (half the Earth circumference, rounded up). -/
theorem haversine_arctan_cap (x : ℝ) : 6371 * (2 * Real.arctan x) < 20016 := by
  have h := Real.arctan_lt_pi_div_two x
  have hpi := Real.pi_lt_d6
  linarith

/-- Every distance computed by `haversine` under the exact real operations
is below `20016` km. -/
theorem haversine_realOps_cap (lat1 lon1 lat2 lon2 : ℝ) :
    haversine realOps lat1 lon1 lat2 lon2 < 20016 := by
  rw [haversine_realOps_eq]
  exact haversine_arctan_cap _

/-- C1: counterexample.  A genuine trace of the forcing branch in which the
prior location and the new merchant location coincide (both `(1, 5)`), so
the exact great-circle distance is `0` km: the prior transaction is 10
seconds old, the natural velocity `0` km/h is below the threshold and the
50% roll succeeds, so the forcing branch fires; the code clamps the
simulated delay to 1 second (`max(1, ...)`, source line 129), so the clock
becomes `priorTimestamp + 1` and not the claimed
`priorTimestamp + secondsRequiredForThresholdVelocity * factor` (which here
equals the prior timestamp, since the required time is `0`), and the
implied velocity after the rewrite is `0` km/h — below the 800 km/h
threshold, not above it. -/
theorem C1_counterexample :
    (haversine realOps 1 5 1 5 / (10 - 0) * 3600 < 800 ∧
        drawsFraudR.forceRoll < 1 / 2) ∧
      fraudTimeUpdate defaultConfig realOps cardPriorR 10 1 5 drawsFraudR = 0 + 1 ∧
      (0 : ℝ) + 1 ≠ 0 + (haversine realOps 1 5 1 5 / 800 * 3600)
          * (1 / 2 + (2 / 5) * drawsFraudR.delayU) ∧
      haversine realOps 1 5 1 5 / ((0 + 1) - 0) * 3600 < 800 := by
  have hhav : haversine realOps (1 : ℝ) 5 1 5 = 0 := haversine_realOps_self 1 5
  refine ⟨⟨?_, ?_⟩, ?_, ?_, ?_⟩
  · rw [hhav]; norm_num
  · norm_num [drawsFraudR]
  · unfold fraudTimeUpdate
    show (if (1 : ℝ) = 0 then (10 : ℝ) else _) = 0 + 1
    rw [if_neg (by norm_num : (1 : ℝ) ≠ 0)]
    rw [if_pos (by norm_num : (0 : ℝ) < 10 - 0)]
    rw [if_pos ?hcond]
    case hcond =>
      constructor
      · show haversine realOps (1 : ℝ) ((cardPriorR.LastTxLongitude).getD 0) 1 5
            / (10 - 0) * 3600 < (defaultConfig : Config ℝ).HIGH_VELOCITY_THRESHOLD_KMH
        rw [show (cardPriorR.LastTxLongitude).getD 0 = (5 : ℝ) from rfl, hhav]
        norm_num [defaultConfig]
      · norm_num [drawsFraudR, defaultConfig]
    show (0 : ℝ) + max 1 (uniform _ _ drawsFraudR.delayU) = 0 + 1
    rw [show (cardPriorR.LastTxLongitude).getD 0 = (5 : ℝ) from rfl, hhav]
    rw [show drawsFraudR.delayU = (0 : ℝ) from rfl]
    norm_num [uniform, defaultConfig, max_eq_left]
  · rw [hhav]; norm_num [drawsFraudR]
  · rw [hhav]; norm_num

/-- C1: witness.  A genuine forced rewrite under the exact real operations:
prior location `(25, 0)`, merchant at the box corner `(25.450045, 0.49)`
(more than 60 km away, below the global 20016 km cap) and elapsed time
`100000` s, so the natural velocity is below 800 km/h, while with
`delayU = 0` (`factor = 0.5`) the unclamped delay exceeds `2.25 * 60 > 1`
seconds: the rewrite follows the claimed formula exactly and the implied
velocity `threshold / factor = 1600` km/h exceeds the threshold. -/
theorem C1_witness :
    fraudTimeUpdate defaultConfig realOps cardPriorC1 100000 (25450045 / 1000000)
          (49 / 100) drawsFraudR
        = 0 + (haversine realOps 25 (cardPriorC1.LastTxLongitude.getD 0)
              (25450045 / 1000000) (49 / 100)
            / (defaultConfig : Config ℝ).HIGH_VELOCITY_THRESHOLD_KMH * 3600)
          * (1 / 2 + (2 / 5) * drawsFraudR.delayU) ∧
      (defaultConfig : Config ℝ).HIGH_VELOCITY_THRESHOLD_KMH
        < haversine realOps 25 (cardPriorC1.LastTxLongitude.getD 0)
              (25450045 / 1000000) (49 / 100)
            / (fraudTimeUpdate defaultConfig realOps cardPriorC1 100000
                (25450045 / 1000000) (49 / 100) drawsFraudR - 0) * 3600 := by
  have hlow : (60 : ℝ) < haversine realOps 25 ((cardPriorC1.LastTxLongitude).getD 0)
      (25450045 / 1000000) (49 / 100) := by
    rw [show (cardPriorC1.LastTxLongitude).getD 0 = (0 : ℝ) from rfl]
    exact haversine_corner_gt_60
  exact C1_forced_rewrite_amended defaultConfig realOps cardPriorC1 100000
    (25450045 / 1000000) (49 / 100) 0 25 drawsFraudR rfl rfl (by norm_num)
    (by norm_num) (by norm_num [defaultConfig])
    (by norm_num [drawsFraudR]) (by norm_num [drawsFraudR])
    (by
      have h := haversine_realOps_cap 25 ((cardPriorC1.LastTxLongitude).getD 0)
        ((25450045 : ℝ) / 1000000) (49 / 100)
      rw [show (defaultConfig : Config ℝ).HIGH_VELOCITY_THRESHOLD_KMH = (800 : ℝ) from rfl]
      linarith)
    (by norm_num [drawsFraudR])
    (by
      rw [show (defaultConfig : Config ℝ).HIGH_VELOCITY_THRESHOLD_KMH = (800 : ℝ) from rfl,
        show drawsFraudR.delayU = (0 : ℝ) from rfl]
      linarith)

end CardSentry
